import Mathlib

/-!
# namecloud: the `point` and `transfer` workflows

A shallow embedding of `cmd/transfer.go` and `cmd/point.go`.

Both commands are finite sequences of guarded calls to two remote services
(the Namecheap registrar and the Cloudflare zone provider), to standard input
and to the logger.  A run is modelled by the list of its observable events, in
program order: every call the program makes, together with the answer it
received, and every line it logs.  `log.Fatal*` logs and exits, so a fatal log
event is always the last event of a run.

The outside world is a state machine `Api σ`: each call receives the current
world state and returns its answer with the next state, so answers may depend
on everything that happened before.
-/

namespace Namecloud

/-! ## Data model -/

/-- A Go `error` value, represented by its message. -/
abbrev Error := String

deriving instance DecidableEq for Except

/-- The `Whoisguard` part of `namecheap.DomainInfo`; `ForwardedTo` is
`EmailDetails.ForwardedTo`. -/
structure Whoisguard where
  Enabled : Bool
  ID : Int
  ForwardedTo : String
  deriving DecidableEq

/-- The fields of `namecheap.DomainInfo` the commands read.  `Created` is an
instant in nanoseconds, `Nameservers` is `DNSDetails.Nameservers`. -/
structure DomainInfo where
  Name : String
  Created : Int
  IsExpired : Bool
  IsLocked : Bool
  Whoisguard : Whoisguard
  Nameservers : List String
  deriving DecidableEq

/-- One element of the answer of `DomainsGetList`. -/
structure DomainGetListResult where
  Name : String
  deriving DecidableEq

/-- Answer of `DomainSetRegistrarLock`. -/
structure DomainSetRegistrarLockResult where
  Name : String
  IsSuccess : Bool
  deriving DecidableEq

/-- Answer of `DomainDNSSetCustom`. -/
structure DomainDNSSetCustomResult where
  Update : Bool
  deriving DecidableEq

/-- The fields of `cloudflare.Zone` the commands read. -/
structure Zone where
  ID : String
  Name : String
  NameServers : List String
  deriving DecidableEq

/-- The value `cloudflareAccount` resolved by `preRun`. -/
structure Account where
  ID : String
  deriving DecidableEq

/-- The request `cloudflare.TransferRegistrarDomainRequest`. -/
structure TransferRegistrarDomainRequest where
  RegistrantContactID : String
  AutoRenew : Bool
  Years : Int
  Privacy : Bool
  ImportDNS : Bool
  Name : String
  AuthCode : String
  deriving DecidableEq

/-- The result of `publicsuffix.Parse`. -/
structure DomainName where
  TLD : String
  SLD : String
  TRD : String
  deriving DecidableEq

/-- The package-level variables both commands read: the flags of `init` and
what `preRun` resolved (`clientAccountID` is `cloudflareClient.AccountID`). -/
structure Globals where
  cloudflareAccount : Account
  clientAccountID : String
  cloudflareContactID : String
  domainYears : Int
  enablePrivacy : Bool
  enableAutoRenew : Bool
  enableImportDNS : Bool

/-! ## Events -/

/-- The logrus levels the commands use. -/
inductive Level
  | info
  | warn
  | error
  | fatal
  deriving DecidableEq

/-- An operand of a log call.  A `float64` operand is carried as the exact
rational it stands for. -/
inductive Arg
  | str (s : String)
  | err (e : Error)
  | bool (b : Bool)
  | num (q : ℚ)
  | strs (l : List String)
  deriving DecidableEq

/-- One observable step of a run.  A call event carries the arguments of the
call and the answer the world gave.  For `log`, `text` is the format string of
an `...f` call, or the first operand of an `...ln` call, and `args` are the
remaining operands. -/
inductive Event
  | log (lvl : Level) (text : String) (args : List Arg)
  | printf (text : String) (args : List Arg)
  | panic
  | Now (t : Int)
  | ReadString (res : String × Option Error)
  | DomainsGetList (res : List DomainGetListResult × Option Error)
  | DomainGetInfo (name : String) (res : Except Error (Option DomainInfo))
  | DomainSetRegistrarLock (name : String) (lock : Bool)
      (res : Except Error DomainSetRegistrarLockResult)
  | WhoisguardDisable (id : Int) (res : Option Error)
  | WhoisguardEnable (id : Int) (email : String) (res : Option Error)
  | DomainDNSSetCustom (sld tld nameservers : String)
      (res : Except Error DomainDNSSetCustomResult)
  | ListZonesContext (name accountID : String) (perPage : Nat)
      (res : Except Error (List Zone))
  | CreateZone (name : String) (jumpstart : Bool) (account : Account) (zoneType : String)
      (res : Except Error Zone)
  | CheckRegistrarTransferAuthCode (accountID name code : String) (res : Except Error Bool)
  | TransferRegistrarDomain (zone : Zone) (req : TransferRegistrarDomainRequest)
      (res : Except Error Bool)
  deriving DecidableEq

/-- The outside world: the two remote services, the clock and standard input.
Every call maps the current state to an answer and the next state.  A Go
result `(value, err)` with `err != nil` is `Except.error err`; the value is
kept next to the error only where the code reads it regardless
(`DomainsGetList`, `ReadString`).  A pointer result that comes without error
is taken to be non-nil, except for `DomainGetInfo`, whose nil answer the code
tests (`transfer.go:39`). -/
structure Api (σ : Type) where
  Now : σ → Int
  ReadString : σ → (String × Option Error) × σ
  DomainsGetList : σ → (List DomainGetListResult × Option Error) × σ
  DomainGetInfo : σ → String → Except Error (Option DomainInfo) × σ
  DomainSetRegistrarLock : σ → String → Bool → Except Error DomainSetRegistrarLockResult × σ
  WhoisguardDisable : σ → Int → Option Error × σ
  WhoisguardEnable : σ → Int → String → Option Error × σ
  DomainDNSSetCustom : σ → String → String → String → Except Error DomainDNSSetCustomResult × σ
  ListZonesContext : σ → String → String → Nat → Except Error (List Zone) × σ
  CreateZone : σ → String → Bool → Account → String → Except Error Zone × σ
  CheckRegistrarTransferAuthCode : σ → String → String → String → Except Error Bool × σ
  TransferRegistrarDomain : σ → Zone → TransferRegistrarDomainRequest → Except Error Bool × σ

/-! ## Library functions used by `transfer` -/

/-- The constant `time.Hour`, in nanoseconds. -/
def Hour : Int := 3600000000000

/-- The largest `time.Duration`. -/
def maxDuration : Int := 9223372036854775807

/-- The smallest `time.Duration`. -/
def minDuration : Int := -9223372036854775808

/-- The method `Time.Sub`: the difference of two instants, saturated to the
range of `time.Duration`. -/
def timeSub (t u : Int) : Int :=
  if t - u < minDuration then minDuration
  else if maxDuration < t - u then maxDuration
  else t - u

/-- The method `Duration.Hours`: whole hours plus the remaining nanoseconds as
a fraction of an hour. -/
def Hours (d : Int) : ℚ :=
  ((d.tdiv Hour : Int) : ℚ) + ((d.tmod Hour : Int) : ℚ) / (60 * 60 * 1000000000)

/-- The expression `time.Since(created).Hours() / 24` of `transfer.go:47`,
with the clock reading `now`. -/
def daysSince (now created : Int) : ℚ :=
  Hours (timeSub now created) / 24

/-- The function `strings.Replace(s, old, new, -1)` on character lists, for a
non-empty `old`: scanning from the left, every non-overlapping occurrence of
`old` is replaced by `new`.  The counter is the number of characters of a
matched occurrence still to be skipped. -/
def replaceAll (old new : List Char) : Nat → List Char → List Char
  | _, [] => []
  | skip + 1, _ :: cs => replaceAll old new skip cs
  | 0, c :: cs =>
    if old.isPrefixOf (c :: cs) then new ++ replaceAll old new (old.length - 1) cs
    else c :: replaceAll old new 0 cs

/-- The call `strings.Replace(eppCode, "\n", "", -1)` of `transfer.go:74`. -/
def stripNewlines (eppCode : String) : String :=
  String.mk (replaceAll ['\n'] [] 0 eppCode.data)

/-! ## The `transfer` command -/

/-- The warning `bailOut` starts with. -/
def bailOutBanner : String :=
  "Bailout: Something went seriously wrong, entering bailout. We will attempt to lock the domain and re-enable WhoisGuard (if it exists on domain) but this may fail. Double check with the Namecheap control panel. Error details to follow."

/-- The function `bailOut` (`transfer.go:132-152`). -/
def bailOut {σ : Type} (api : Api σ) (domain : DomainInfo) (format : String)
    (args : List Arg) (s : σ) : List Event :=
  let done : List Event :=
    [Event.log Level.info "Bailout: Successfully re-enabled WhoisGuard" [],
     Event.log Level.info "Bailout complete, error details to follow" [],
     Event.log Level.fatal format args]
  let lockRes := api.DomainSetRegistrarLock s domain.Name true
  Event.log Level.warn bailOutBanner [] ::
  Event.DomainSetRegistrarLock domain.Name true lockRes.1 ::
  match lockRes.1 with
  | Except.error setLockStatusErr =>
    [Event.log Level.fatal
      "Bailout: Error unlocking domain %s. YOUR DOMAIN IS UNLOCKED!! %v\n"
      [Arg.str domain.Name, Arg.err setLockStatusErr]]
  | Except.ok _ =>
    Event.log Level.info "Bailout: Successfully re-locked domain" [] ::
    if domain.Whoisguard.Enabled then
      let guardRes := api.WhoisguardEnable lockRes.2 domain.Whoisguard.ID
        domain.Whoisguard.ForwardedTo
      Event.WhoisguardEnable domain.Whoisguard.ID domain.Whoisguard.ForwardedTo guardRes.1 ::
      match guardRes.1 with
      | some setWhoisguardErr =>
        [Event.log Level.fatal
          "Bailout: Error disabling Whoisguard on domain %s. YOUR WHOIS INFORMATION IS UNPROTECTED!! %v\n"
          [Arg.str domain.Name, Arg.err setWhoisguardErr]]
      | none => done
    else done

/-- The request built at `transfer.go:110-118`. -/
def transferRequest (g : Globals) (namecheapDomain : DomainInfo) (eppCode : String) :
    TransferRegistrarDomainRequest :=
  { RegistrantContactID := g.cloudflareContactID
    AutoRenew := g.enableAutoRenew
    Years := g.domainYears
    Privacy := g.enablePrivacy
    ImportDNS := g.enableImportDNS
    Name := namecheapDomain.Name
    AuthCode := eppCode }

/-- Lines 108-127 of `transferCmd.Run`: the transfer is requested. -/
def transferCmd.initiate {σ : Type} (api : Api σ) (g : Globals) (namecheapDomain : DomainInfo)
    (cloudflareZone : Zone) (eppCode : String) (s : σ) : List Event :=
  let res := api.TransferRegistrarDomain s cloudflareZone
    (transferRequest g namecheapDomain eppCode)
  Event.log Level.info "Domain is ready to be transferred to Cloudflare, continuing..." [] ::
  Event.TransferRegistrarDomain cloudflareZone (transferRequest g namecheapDomain eppCode) res.1 ::
  match res.1 with
  | Except.error transferReqErr =>
    bailOut api namecheapDomain "Error beginning Cloudflare Registrar transfer of %s: %v\n"
      [Arg.str namecheapDomain.Name, Arg.err transferReqErr] res.2
  | Except.ok true =>
    [Event.log Level.info
      "Cloudflare has started the process. Keep an eye on your email for a confirmation email from Namecheap. Inside, you'll find a link that must be clicked to continue the process."
      []]
  | Except.ok false =>
    bailOut api namecheapDomain "Cloudflare reported the transfer of %s failed!\n"
      [Arg.str namecheapDomain.Name] res.2

/-- Lines 99-106 of `transferCmd.Run`, followed by the rest of the run. -/
def transferCmd.disableGuard {σ : Type} (api : Api σ) (g : Globals)
    (namecheapDomain : DomainInfo) (cloudflareZone : Zone) (eppCode : String) (s : σ) :
    List Event :=
  if namecheapDomain.Whoisguard.Enabled then
    let res := api.WhoisguardDisable s namecheapDomain.Whoisguard.ID
    Event.log Level.info "%s: Disabling WhoisGuard" [Arg.str namecheapDomain.Name] ::
    Event.WhoisguardDisable namecheapDomain.Whoisguard.ID res.1 ::
    match res.1 with
    | some setWhoisguardErr =>
      bailOut api namecheapDomain "Error disabling Whoisguard on domain %s: %v\n"
        [Arg.str namecheapDomain.Name, Arg.err setWhoisguardErr] res.2
    | none => transferCmd.initiate api g namecheapDomain cloudflareZone eppCode res.2
  else
    Event.log Level.info "%s: WhoisGuard is already disabled" [Arg.str namecheapDomain.Name] ::
    transferCmd.initiate api g namecheapDomain cloudflareZone eppCode s

/-- Lines 87-97 of `transferCmd.Run`, followed by the rest of the run. -/
def transferCmd.unlock {σ : Type} (api : Api σ) (g : Globals) (namecheapDomain : DomainInfo)
    (cloudflareZone : Zone) (eppCode : String) (s : σ) : List Event :=
  if namecheapDomain.IsLocked then
    let res := api.DomainSetRegistrarLock s namecheapDomain.Name false
    Event.log Level.info "%s: Unlocking" [Arg.str namecheapDomain.Name] ::
    Event.DomainSetRegistrarLock namecheapDomain.Name false res.1 ::
    match res.1 with
    | Except.error setLockStatusErr =>
      bailOut api namecheapDomain "Error unlocking domain %s: %v\n"
        [Arg.str namecheapDomain.Name, Arg.err setLockStatusErr] res.2
    | Except.ok setLockStatus =>
      Event.log Level.info "setLockStatus"
        [Arg.str setLockStatus.Name, Arg.str "is success?", Arg.bool setLockStatus.IsSuccess] ::
      transferCmd.disableGuard api g namecheapDomain cloudflareZone eppCode res.2
  else
    Event.log Level.info "%s: Domain is already unlocked" [Arg.str namecheapDomain.Name] ::
    transferCmd.disableGuard api g namecheapDomain cloudflareZone eppCode s

/-- Lines 65-85 of `transferCmd.Run`, followed by the rest of the run: the
auth code is read from standard input and validated. -/
def transferCmd.authCode {σ : Type} (api : Api σ) (g : Globals) (namecheapDomain : DomainInfo)
    (cloudflareZone : Zone) (s : σ) : List Event :=
  let read := api.ReadString s
  Event.log Level.info
    "We need the EPP/Auth code for %s. You can get this at the bottom of %s. It will be emailed to you within a few minutes. You must then enter it below."
    [Arg.str namecheapDomain.Name, Arg.str ("https://ap.www.namecheap.com/domains/dcp/share/" ++
      namecheapDomain.Name ++ "/rights")] ::
  Event.printf "Enter the EPP/Auth Code for %s to continue: " [Arg.str namecheapDomain.Name] ::
  Event.ReadString read.1 ::
  match read.1 with
  | (_, some eppCodeErr) =>
    [Event.log Level.fatal "Error accepting EPP code input" [Arg.err eppCodeErr]]
  | (line, none) =>
    let eppCode := stripNewlines line
    let check := api.CheckRegistrarTransferAuthCode read.2 g.clientAccountID
      namecheapDomain.Name eppCode
    Event.log Level.info "Received EPP/auth code for %s: %#q\n"
      [Arg.str namecheapDomain.Name, Arg.str eppCode] ::
    Event.CheckRegistrarTransferAuthCode g.clientAccountID namecheapDomain.Name eppCode check.1 ::
    match check.1 with
    | Except.error codeCheckErr =>
      [Event.log Level.fatal "Error checking EPP/auth code validity for domain %s: %v\n"
        [Arg.str namecheapDomain.Name, Arg.err codeCheckErr]]
    | Except.ok false =>
      [Event.log Level.fatal
        "Cloudflare reported the EPP/auth code \"%s\" is invalid for the domain %s. Please try again."
        [Arg.str eppCode, Arg.str namecheapDomain.Name]]
    | Except.ok true => transferCmd.unlock api g namecheapDomain cloudflareZone eppCode check.2

/-- Lines 43-63 of `transferCmd.Run`, followed by the rest of the run: the
eligibility gate and the zone lookup. -/
def transferCmd.eligible {σ : Type} (api : Api σ) (g : Globals) (arg0 : String)
    (namecheapDomain : DomainInfo) (s : σ) : List Event :=
  if namecheapDomain.IsExpired then
    [Event.log Level.fatal "You can't transfer an expired domain!" []]
  else
    Event.Now (api.Now s) ::
    if daysSince (api.Now s) namecheapDomain.Created ≤ 60 then
      [Event.log Level.fatal
        "Transfer can not begin until at least 60 days since initial registration. It has only been %f days\n"
        [Arg.num (daysSince (api.Now s) namecheapDomain.Created)]]
    else
      let zones := api.ListZonesContext s arg0 g.cloudflareAccount.ID 50
      Event.ListZonesContext arg0 g.cloudflareAccount.ID 50 zones.1 ::
      match zones.1 with
      | Except.error cfZonesErr =>
        [Event.log Level.fatal "Error getting all zones" [Arg.err cfZonesErr]]
      | Except.ok [] =>
        [Event.log Level.fatal "Didn't find Cloudflare zone for %s\n" [Arg.str arg0]]
      | Except.ok (cloudflareZone :: _) =>
        transferCmd.authCode api g namecheapDomain cloudflareZone zones.2

/-- The function `transferCmd.Run` (`transfer.go:29-129`), from the world
state `s` left by `preRun`. -/
def transferCmd.Run {σ : Type} (api : Api σ) (g : Globals) (args : List String) (s : σ) :
    List Event :=
  match args with
  | [] =>
    [Event.log Level.fatal
      "You must provide the domain name to transfer as the last argument." []]
  | arg0 :: _ =>
    let info := api.DomainGetInfo s arg0
    Event.DomainGetInfo arg0 info.1 ::
    match info.1 with
    | Except.error domainErr =>
      [Event.log Level.fatal "Error getting Namecheap domain info for:"
        [Arg.str arg0, Arg.err domainErr]]
    | Except.ok none =>
      [Event.log Level.fatal "Didn't find domain name %s in your Namecheap account!\n"
        [Arg.str arg0]]
    | Except.ok (some namecheapDomain) =>
      transferCmd.eligible api g arg0 namecheapDomain info.2

/-! ## The `point` command -/

/-- Modelled from the spec: the helper `contains` called at `point.go:38` is
not among the sources; section 4.2 step 3 reads it as "whose name is not in
the zone list", that is, membership of the string in the slice. -/
def contains (s : List String) (e : String) : Bool :=
  match s with
  | [] => false
  | a :: rest => if a = e then true else contains rest e

/-- Modelled from the spec: the helper `equal` called at `point.go:61` is not
among the sources; section 4.2 step 4 reads it as "exact sequence comparison":
same length and the same string at every position. -/
def equal (a b : List String) : Bool :=
  match a, b with
  | [], [] => true
  | x :: xs, y :: ys => if x = y then equal xs ys else false
  | _, _ => false

/-- A Go `map[string][]string`, kept as its entries with pairwise distinct
keys. -/
abbrev StringMap := List (String × List String)

/-- The assignment `m[k] = v`: the value of an existing key is replaced, a new
key gets a new entry. -/
def StringMap.set (m : StringMap) (k : String) (v : List String) : StringMap :=
  match m with
  | [] => [(k, v)]
  | e :: rest => if e.1 = k then (k, v) :: rest else e :: StringMap.set rest k v

/-- The loop of `point.go:37-50` over the registrar's domain list, with the
map and the slice built so far.  The second component is `none` when the run
ended inside the loop, and otherwise what the loop leaves behind.  A lookup
that returns neither a domain nor an error makes `point.go:46` dereference a
nil pointer: the run panics. -/
def pointCmd.gather {σ : Type} (api : Api σ) (cloudflareDomains : List String) :
    List DomainGetListResult → StringMap → List String → σ →
      List Event × Option (StringMap × List String × σ)
  | [], domainsToAddToCF, domainList, s => ([], some (domainsToAddToCF, domainList, s))
  | domain :: rest, domainsToAddToCF, domainList, s =>
    if contains cloudflareDomains domain.Name then
      pointCmd.gather api cloudflareDomains rest domainsToAddToCF domainList s
    else
      let info := api.DomainGetInfo s domain.Name
      match info.1 with
      | Except.error domainInfoErr =>
        ([Event.DomainGetInfo domain.Name info.1,
          Event.log Level.fatal "Error getting Namecheap domain info for domain:"
            [Arg.str domain.Name, Arg.err domainInfoErr]], none)
      | Except.ok none =>
        ([Event.DomainGetInfo domain.Name info.1, Event.panic], none)
      | Except.ok (some domainInfo) =>
        let next := pointCmd.gather api cloudflareDomains rest
          (StringMap.set domainsToAddToCF domainInfo.Name domainInfo.Nameservers)
          (domainList ++ [domainInfo.Name]) info.2
        (Event.DomainGetInfo domain.Name info.1 ::
          Event.log Level.info "Namecheap Domain:"
            [Arg.str domainInfo.Name, Arg.str "has name servers:",
             Arg.str (String.intercalate ", " domainInfo.Nameservers)] :: next.1, next.2)

/-- The body of the loop of `point.go:54-81` for one map entry: the events it
produces and the world state it leaves.  `parse` is `publicsuffix.Parse`. -/
def pointCmd.addZone {σ : Type} (api : Api σ) (g : Globals)
    (parse : String → Except Error DomainName) (entry : String × List String) (s : σ) :
    List Event × σ :=
  let domainName := entry.1
  let currentNameServers := entry.2
  let created := api.CreateZone s domainName true g.cloudflareAccount "full"
  match created.1 with
  | Except.error newZoneErr =>
    ([Event.CreateZone domainName true g.cloudflareAccount "full" created.1,
      Event.log Level.error "Error when adding new zone"
        [Arg.str domainName, Arg.err newZoneErr]], created.2)
  | Except.ok newZone =>
    if !equal newZone.NameServers currentNameServers then
      match parse domainName with
      | Except.error parsedDomainErr =>
        ([Event.CreateZone domainName true g.cloudflareAccount "full" created.1,
          Event.log Level.info
            "New zone %s nameservers don't match whats on Namecheap! Cloudflare wants %v, Namecheap has %v\n"
            [Arg.str newZone.Name, Arg.strs newZone.NameServers, Arg.strs currentNameServers],
          Event.log Level.error "Error when parsing domain name"
            [Arg.str domainName, Arg.err parsedDomainErr]], created.2)
      | Except.ok parsedDomain =>
        let set := api.DomainDNSSetCustom created.2 parsedDomain.SLD parsedDomain.TLD
          (String.intercalate "," newZone.NameServers)
        (Event.CreateZone domainName true g.cloudflareAccount "full" created.1 ::
          Event.log Level.info
            "New zone %s nameservers don't match whats on Namecheap! Cloudflare wants %v, Namecheap has %v\n"
            [Arg.str newZone.Name, Arg.strs newZone.NameServers, Arg.strs currentNameServers] ::
          Event.DomainDNSSetCustom parsedDomain.SLD parsedDomain.TLD
            (String.intercalate "," newZone.NameServers) set.1 ::
          (match set.1 with
          | Except.error setNameserversErr =>
            [Event.log Level.error "Error when setting Namecheap nameservers for domain"
              [Arg.str domainName, Arg.err setNameserversErr]]
          | Except.ok setNameserversResp =>
            if !setNameserversResp.Update then
              [Event.log Level.warn "Namecheap nameservers update failed for domain"
                [Arg.str domainName]]
            else []), set.2)
    else
      ([Event.CreateZone domainName true g.cloudflareAccount "full" created.1], created.2)

/-- The loop of `point.go:54-81` over the map entries, in the order in which
`range` visits them. -/
def pointCmd.addZones {σ : Type} (api : Api σ) (g : Globals)
    (parse : String → Except Error DomainName) : List (String × List String) → σ → List Event
  | [], _ => []
  | entry :: rest, s =>
    (pointCmd.addZone api g parse entry s).1 ++
      pointCmd.addZones api g parse rest (pointCmd.addZone api g parse entry s).2

/-- Lines 33-81 of `pointCmd.Run`: everything after the two listings, for the
zone names `cloudflareDomains` and the registrar's domains
`namecheapDomainsResp`.  `rangeOrder` is the order in which `range` visits the
entries of a map, which Go leaves unspecified. -/
def pointCmd.addMissing {σ : Type} (api : Api σ) (g : Globals)
    (parse : String → Except Error DomainName) (rangeOrder : StringMap → StringMap)
    (cloudflareDomains : List String) (namecheapDomainsResp : List DomainGetListResult)
    (s : σ) : List Event :=
  let gathered := pointCmd.gather api cloudflareDomains namecheapDomainsResp [] [] s
  gathered.1 ++
    match gathered.2 with
    | none => []
    | some (domainsToAddToCF, domainList, s1) =>
      Event.log Level.info "Zones that will be created in Cloudflare:" [Arg.strs domainList] ::
      pointCmd.addZones api g parse (rangeOrder domainsToAddToCF) s1

/-- The function `pointCmd.Run` (`point.go:19-82`), from the world state `s`
left by `preRun`.  The error of `DomainsGetList` is discarded (`point.go:36`). -/
def pointCmd.Run {σ : Type} (api : Api σ) (g : Globals)
    (parse : String → Except Error DomainName) (rangeOrder : StringMap → StringMap) (s : σ) :
    List Event :=
  let zones := api.ListZonesContext s "" g.cloudflareAccount.ID 50
  Event.ListZonesContext "" g.cloudflareAccount.ID 50 zones.1 ::
  match zones.1 with
  | Except.error cfZonesErr =>
    [Event.log Level.fatal "Error getting all zones" [Arg.err cfZonesErr]]
  | Except.ok result =>
    let cloudflareDomains := result.map Zone.Name
    let list := api.DomainsGetList zones.2
    Event.DomainsGetList list.1 ::
    pointCmd.addMissing api g parse rangeOrder cloudflareDomains list.1.1 list.2

/-! ## Classifying events -/

/-- The event is a call of the registrar-transfer initiation. -/
def Event.isTransfer : Event → Bool
  | Event.TransferRegistrarDomain _ _ _ => true
  | _ => false

/-- The event is a call to one of the two remote services. -/
def Event.isCall : Event → Bool
  | Event.log _ _ _ => false
  | Event.printf _ _ => false
  | Event.panic => false
  | Event.Now _ => false
  | Event.ReadString _ => false
  | _ => true

/-- The event is a call that changes state at the registrar or at the
provider: lock or unlock, guard enable or disable, transfer initiation, zone
creation, nameserver update. -/
def Event.isStateChanging : Event → Bool
  | Event.DomainSetRegistrarLock _ _ _ => true
  | Event.WhoisguardDisable _ _ => true
  | Event.WhoisguardEnable _ _ _ => true
  | Event.TransferRegistrarDomain _ _ _ => true
  | Event.CreateZone _ _ _ _ _ => true
  | Event.DomainDNSSetCustom _ _ _ _ => true
  | _ => false

/-- The texts of the fatal messages of the read-only steps 1-7 of `transfer`
(`transfer.go:31, 36, 40, 44, 49, 56, 60, 71, 80, 84`). -/
def preconditionFailures : List String :=
  ["You must provide the domain name to transfer as the last argument.",
   "Error getting Namecheap domain info for:",
   "Didn't find domain name %s in your Namecheap account!\n",
   "You can't transfer an expired domain!",
   "Transfer can not begin until at least 60 days since initial registration. It has only been %f days\n",
   "Error getting all zones",
   "Didn't find Cloudflare zone for %s\n",
   "Error accepting EPP code input",
   "Error checking EPP/auth code validity for domain %s: %v\n",
   "Cloudflare reported the EPP/auth code \"%s\" is invalid for the domain %s. Please try again."]

/-- The event with which `bailOut` is entered. -/
def bailOutEntry : Event := Event.log Level.warn bailOutBanner []

/-- The run issued no state-changing call and did not enter `bailOut`. -/
def ReadOnly (tr : List Event) : Prop :=
  ∀ e ∈ tr, e.isStateChanging = false ∧ e ≠ bailOutEntry

/-- The run does not end with one of the precondition failures. -/
def EndsPastPreconditions (tr : List Event) : Prop :=
  tr ≠ [] ∧ ∀ text fargs,
    tr.getLast? = some (Event.log Level.fatal text fargs) → text ∉ preconditionFailures


/-- The event is a failure of steps 8-10 of `transfer`: an unlock call that
errored, a guard-disable call that errored, or a transfer initiation that
errored or answered `false`. -/
def Event.isStepFailure : Event → Bool
  | Event.DomainSetRegistrarLock _ false (Except.error _) => true
  | Event.WhoisguardDisable _ (some _) => true
  | Event.TransferRegistrarDomain _ _ (Except.error _) => true
  | Event.TransferRegistrarDomain _ _ (Except.ok false) => true
  | _ => false

/-- The message `transferCmd.Run` hands to `bailOut` at a failure of steps
8-10 (`transfer.go:91, 102, 120, 126`). -/
def triggerMessage (d : DomainInfo) : Event → String × List Arg
  | Event.DomainSetRegistrarLock _ _ (Except.error e) =>
    ("Error unlocking domain %s: %v\n", [Arg.str d.Name, Arg.err e])
  | Event.WhoisguardDisable _ (some e) =>
    ("Error disabling Whoisguard on domain %s: %v\n", [Arg.str d.Name, Arg.err e])
  | Event.TransferRegistrarDomain _ _ (Except.error e) =>
    ("Error beginning Cloudflare Registrar transfer of %s: %v\n", [Arg.str d.Name, Arg.err e])
  | _ => ("Cloudflare reported the transfer of %s failed!\n", [Arg.str d.Name])


/-- What the events `pre` before a transfer initiation for `zone` with request
`req` show, in a run of `transfer` with arguments `args`: an argument was
present; its lookup returned a domain `d`; `d` is not expired; the clock read
more than 60 days after its creation; the zone listing for the argument
returned a non-empty list with first zone `zone`; a line was read without
error; the request carries the read line without its newlines, and the
validation of that code answered `true`; a locked domain was unlocked without
error; no lock call before the initiation errored; a guarded domain had its
guard disabled without error; no guard-disable call errored. -/
def GatesPassed (g : Globals) (args : List String) (pre : List Event) (zone : Zone)
    (req : TransferRegistrarDomainRequest) : Prop :=
  ∃ arg0 d zs now line,
    args.head? = some arg0 ∧
    Event.DomainGetInfo arg0 (Except.ok (some d)) ∈ pre ∧
    d.IsExpired = false ∧
    Event.Now now ∈ pre ∧ 60 < daysSince now d.Created ∧
    Event.ListZonesContext arg0 g.cloudflareAccount.ID 50 (Except.ok (zone :: zs)) ∈ pre ∧
    req = transferRequest g d (stripNewlines line) ∧
    Event.ReadString (line, none) ∈ pre ∧
    Event.CheckRegistrarTransferAuthCode g.clientAccountID d.Name (stripNewlines line)
      (Except.ok true) ∈ pre ∧
    (d.IsLocked = true →
      ∃ r, Event.DomainSetRegistrarLock d.Name false (Except.ok r) ∈ pre) ∧
    (∀ n l r, Event.DomainSetRegistrarLock n l r ∈ pre → ∃ v, r = Except.ok v) ∧
    (d.Whoisguard.Enabled = true → Event.WhoisguardDisable d.Whoisguard.ID none ∈ pre) ∧
    (∀ i r, Event.WhoisguardDisable i r ∈ pre → r = none)

/-- What the events `post` after a failure `x` of steps 8-10 are, for the
domain `d` of the run.  Their calls are a lock call for `d` and then, exactly
when that call did not error and `d` had its guard enabled, a guard-enable
call with the guard id and forwarding email of `d`; when no compensating call
errored, the last event is the fatal message of the failure `x`. -/
def Compensation (d : DomainInfo) (x : Event) (post : List Event) : Prop :=
  (∃ e, post.filter Event.isCall =
      [Event.DomainSetRegistrarLock d.Name true (Except.error e)]) ∨
  (∃ v, d.Whoisguard.Enabled = false ∧
    post.filter Event.isCall = [Event.DomainSetRegistrarLock d.Name true (Except.ok v)] ∧
    post.getLast? =
      some (Event.log Level.fatal (triggerMessage d x).1 (triggerMessage d x).2)) ∨
  (∃ v r, d.Whoisguard.Enabled = true ∧
    post.filter Event.isCall =
      [Event.DomainSetRegistrarLock d.Name true (Except.ok v),
       Event.WhoisguardEnable d.Whoisguard.ID d.Whoisguard.ForwardedTo r] ∧
    (r = none →
      post.getLast? =
        some (Event.log Level.fatal (triggerMessage d x).1 (triggerMessage d x).2)))

/-- What an event after the validation of the auth code `code` may be: not a
read of standard input, not a validation call, and a transfer initiation only
with `code` as its auth code. -/
def Event.afterCode (code : String) : Event → Prop
  | Event.ReadString _ => False
  | Event.CheckRegistrarTransferAuthCode _ _ _ _ => False
  | Event.TransferRegistrarDomain _ req _ => req.AuthCode = code
  | _ => True


/-- In the events `tr`, every validation call and every transfer initiation
uses the line read from standard input without its newlines, and the
validation call is made. -/
def CodeConsistent (g : Globals) (tr : List Event) : Prop :=
  ∀ line, Event.ReadString (line, none) ∈ tr →
    (∃ name res, Event.CheckRegistrarTransferAuthCode g.clientAccountID name
      (stripNewlines line) res ∈ tr) ∧
    (∀ acc name code res,
      Event.CheckRegistrarTransferAuthCode acc name code res ∈ tr → code = stripNewlines line) ∧
    (∀ zone req res,
      Event.TransferRegistrarDomain zone req res ∈ tr → req.AuthCode = stripNewlines line)


/-- The event is a create-zone call. -/
def Event.isCreateZone : Event → Bool
  | Event.CreateZone _ _ _ _ _ => true
  | _ => false

/-- The event is a set-custom-nameservers call. -/
def Event.isNameserverUpdate : Event → Bool
  | Event.DomainDNSSetCustom _ _ _ _ => true
  | _ => false

/-- The event is a domain detail lookup. -/
def Event.isLookup : Event → Bool
  | Event.DomainGetInfo _ _ => true
  | _ => false

/-- The event ends the process: a fatal log line or a panic. -/
def Event.isTerminal : Event → Bool
  | Event.log Level.fatal _ _ => true
  | Event.panic => true
  | _ => false

/-- The name a create-zone call is made for. -/
def Event.createdName : Event → Option String
  | Event.CreateZone name _ _ _ _ => some name
  | _ => none

/-- The names of the create-zone calls of a run, in order. -/
def createdNames (tr : List Event) : List String :=
  tr.filterMap Event.createdName

/-- The value a map holds for a key, if any. -/
def StringMap.get? (m : StringMap) (k : String) : Option (List String) :=
  match m with
  | [] => none
  | e :: rest => if e.1 = k then some e.2 else StringMap.get? rest k

/-- The detail record that the registrar returned last under the name `name`
among the lookups of `tr`. -/
def lastRecord (name : String) : List Event → Option DomainInfo
  | [] => none
  | Event.DomainGetInfo _ (Except.ok (some info)) :: rest =>
    match lastRecord name rest with
    | some later => some later
    | none => if info.Name = name then some info else none
  | _ :: rest => lastRecord name rest

/-- The events that follow a create-zone call up to the next create-zone call:
what the second loop of `point` does for that zone after creating it. -/
def untilNextCreate (post : List Event) : List Event :=
  post.takeWhile (fun e => !e.isCreateZone)

/-- What surrounds a successful create-zone call for `name` that returned
`newZone`, with `pre` the events before it and `post` the events after it:
the registrar returned a detail record under `name` before the call; the
set-custom-nameservers call is made for this zone if and only if the
nameservers of `newZone` differ, as sequences, from the nameservers of the
last such record and `name` parses; the call then carries the parsed label and
suffix and the comma-joined nameservers of `newZone`; equal sequences give no
call, and so does a name that does not parse. -/
def UpdateGating (parse : String → Except Error DomainName) (name : String) (newZone : Zone)
    (pre post : List Event) : Prop :=
  ∃ info, lastRecord name pre = some info ∧ info.Name = name ∧
    ((untilNextCreate post).filter Event.isNameserverUpdate ≠ [] ↔
      newZone.NameServers ≠ info.Nameservers ∧ ∃ pd, parse name = Except.ok pd) ∧
    (∀ pd, newZone.NameServers ≠ info.Nameservers → parse name = Except.ok pd →
      ∃ res, (untilNextCreate post).filter Event.isNameserverUpdate =
        [Event.DomainDNSSetCustom pd.SLD pd.TLD
          (String.intercalate "," newZone.NameServers) res]) ∧
    (newZone.NameServers = info.Nameservers →
      (untilNextCreate post).filter Event.isNameserverUpdate = []) ∧
    (∀ e, parse name = Except.error e →
      (untilNextCreate post).filter Event.isNameserverUpdate = [])

/-! ## Example worlds -/

/-- A locked, guarded domain registered at instant `0`. -/
def exampleDomain : DomainInfo :=
  { Name := "example.com"
    Created := 0
    IsExpired := false
    IsLocked := true
    Whoisguard := { Enabled := true, ID := 7, ForwardedTo := "owner@example.com" }
    Nameservers := ["dns1.registrar-servers.com", "dns2.registrar-servers.com"] }

/-- The provider zone of `exampleDomain`. -/
def exampleZone : Zone :=
  { ID := "z1", Name := "example.com", NameServers := ["ada.ns.cloudflare.com", "bob.ns.cloudflare.com"] }

/-- Example flag values: the defaults of `init`. -/
def exampleGlobals : Globals :=
  { cloudflareAccount := { ID := "acct" }
    clientAccountID := "acct"
    cloudflareContactID := "contact"
    domainYears := 1
    enablePrivacy := true
    enableAutoRenew := true
    enableImportDNS := true }

/-- A world without memory in which every call succeeds; the clock stands 61
days after the creation of `exampleDomain`. -/
def exampleApi : Api Unit :=
  { Now := fun _ => 61 * 24 * Hour
    ReadString := fun s => ((" abc123 \r\n", none), s)
    DomainsGetList := fun s => (([{ Name := "example.com" }], none), s)
    DomainGetInfo := fun s _ => (Except.ok (some exampleDomain), s)
    DomainSetRegistrarLock := fun s n _ => (Except.ok { Name := n, IsSuccess := true }, s)
    WhoisguardDisable := fun s _ => (none, s)
    WhoisguardEnable := fun s _ _ => (none, s)
    DomainDNSSetCustom := fun s _ _ _ => (Except.ok { Update := true }, s)
    ListZonesContext := fun s _ _ _ => (Except.ok [exampleZone], s)
    CreateZone := fun s n _ _ _ =>
      (Except.ok { ID := "new", Name := n, NameServers := exampleZone.NameServers }, s)
    CheckRegistrarTransferAuthCode := fun s _ _ _ => (Except.ok true, s)
    TransferRegistrarDomain := fun s _ _ => (Except.ok true, s) }

/-- The example world, except that the provider finds the auth code invalid. -/
def invalidCodeApi : Api Unit :=
  { exampleApi with CheckRegistrarTransferAuthCode := fun s _ _ _ => (Except.ok false, s) }

/-- The example world, except that the transfer initiation errors. -/
def transferFailsApi : Api Unit :=
  { exampleApi with TransferRegistrarDomain := fun s _ _ => (Except.error "transfer refused", s) }

/-- The example world, except that the transfer initiation errors and every
lock call with `lock = true` errors. -/
def relockFailsApi : Api Unit :=
  { exampleApi with
    TransferRegistrarDomain := fun s _ _ => (Except.error "transfer refused", s)
    DomainSetRegistrarLock := fun s n lock =>
      if lock then (Except.error "lock refused", s)
      else (Except.ok { Name := n, IsSuccess := true }, s) }

/-- The example world, except that the transfer initiation answers `false`
and the guard-enable call errors. -/
def guardFailsApi : Api Unit :=
  { exampleApi with
    TransferRegistrarDomain := fun s _ _ => (Except.ok false, s)
    WhoisguardEnable := fun s _ _ => (some "guard refused", s) }


/-- A `publicsuffix.Parse` for the names of the example worlds: one label
under `com`. -/
def comParse : String → Except Error DomainName :=
  fun name => Except.ok { TLD := "com", SLD := String.mk (name.data.takeWhile (fun c => c != '.')),
                          TRD := "" }

/-- A `publicsuffix.Parse` that knows the public suffix `github.io`: a name
that is itself a suffix is an error. -/
def suffixParse : String → Except Error DomainName :=
  fun name => if name = "github.io" then Except.error "github.io is a suffix" else comParse name

/-- The detail record of the domain `name` in the world `threeDomainsApi`. -/
def detailOf (name : String) : DomainInfo :=
  { exampleDomain with Name := name }

/-- A world for `point`: the provider has no zone; the registrar lists
`a.com`, `b.com` and `c.com` and returns for each name its detail record; the
creation of the zone `b.com` errors, every other call succeeds. -/
def threeDomainsApi : Api Unit :=
  { exampleApi with
    ListZonesContext := fun s _ _ _ => (Except.ok [], s)
    DomainsGetList := fun s =>
      (([{ Name := "a.com" }, { Name := "b.com" }, { Name := "c.com" }], none), s)
    DomainGetInfo := fun s name => (Except.ok (some (detailOf name)), s)
    CreateZone := fun s n _ _ _ =>
      if n = "b.com" then (Except.error "zone refused", s)
      else (Except.ok { ID := "new", Name := n, NameServers := exampleZone.NameServers }, s) }

/-- The world `threeDomainsApi`, except that the provider already has the
three zones. -/
def allPointedApi : Api Unit :=
  { threeDomainsApi with
    ListZonesContext := fun s _ _ _ =>
      (Except.ok [{ ID := "1", Name := "a.com", NameServers := [] },
                  { ID := "2", Name := "b.com", NameServers := [] },
                  { ID := "3", Name := "c.com", NameServers := [] }], s) }

/-- The world `threeDomainsApi`, except that the lookup of `b.com` errors and
the domain listing comes with an error. -/
def lookupFailsApi : Api Unit :=
  { threeDomainsApi with
    DomainsGetList := fun s =>
      (([{ Name := "a.com" }, { Name := "b.com" }, { Name := "c.com" }], some "list error"), s)
    DomainGetInfo := fun s name =>
      if name = "b.com" then (Except.error "lookup refused", s)
      else (Except.ok (some (detailOf name)), s) }

/-- The example world, except that the registrar lists the domain `x.com`;
its lookup still answers with the record of `example.com`, which has a zone. -/
def mismatchApi : Api Unit :=
  { exampleApi with DomainsGetList := fun s => (([{ Name := "x.com" }], none), s) }

/-! ## Theorems: the eligibility gate -/

/-- In the rationals `Duration.Hours` is the duration divided by one hour. -/
theorem Hours_eq (d : Int) : Hours d = (d : ℚ) / 3600000000000 := by
  have h := Int.tdiv_add_tmod d Hour
  have hq : ((Hour * d.tdiv Hour + d.tmod Hour : Int) : ℚ) = (d : ℚ) := by rw [h]
  unfold Hours
  simp only [Hour] at hq ⊢
  push_cast at hq
  rw [← hq]
  ring

/-- The test `daysSince <= 60` compares the elapsed nanoseconds with 60 days. -/
theorem daysSince_le_iff (now created : Int) :
    daysSince now created ≤ 60 ↔ timeSub now created ≤ 60 * 24 * Hour := by
  unfold daysSince
  rw [Hours_eq, div_le_iff₀ (by norm_num), div_le_iff₀ (by norm_num)]
  have : ((60 : ℚ) * 24 * 3600000000000) = ((60 * 24 * Hour : Int) : ℚ) := by
    norm_num [Hour]
  rw [this]
  exact Int.cast_le

/-- C1: once the registrar lookup has returned a domain, an expired domain
ends the run with the fatal "expired" message as the next event, whatever its
age; an unexpired domain with `daysSince <= 60` ends it with the fatal
"60 days" message right after the clock reading; a domain created exactly 60
days ago is rejected (with `daysSince = 60`); and the zone listing, the first
later step, is called if and only if the domain is unexpired and
`daysSince > 60`, in which case it directly follows the clock reading. -/
theorem transfer_eligibility_gate {σ : Type} (api : Api σ) (g : Globals) (arg0 : String)
    (rest : List String) (s s1 : σ) (d : DomainInfo)
    (hinfo : api.DomainGetInfo s arg0 = (Except.ok (some d), s1)) :
    (d.IsExpired = true →
      transferCmd.Run api g (arg0 :: rest) s =
        [Event.DomainGetInfo arg0 (Except.ok (some d)),
         Event.log Level.fatal "You can't transfer an expired domain!" []]) ∧
    (d.IsExpired = false → daysSince (api.Now s1) d.Created ≤ 60 →
      transferCmd.Run api g (arg0 :: rest) s =
        [Event.DomainGetInfo arg0 (Except.ok (some d)),
         Event.Now (api.Now s1),
         Event.log Level.fatal
           "Transfer can not begin until at least 60 days since initial registration. It has only been %f days\n"
           [Arg.num (daysSince (api.Now s1) d.Created)]]) ∧
    (d.IsExpired = false → api.Now s1 - d.Created = 60 * 24 * Hour →
      daysSince (api.Now s1) d.Created = 60 ∧
      transferCmd.Run api g (arg0 :: rest) s =
        [Event.DomainGetInfo arg0 (Except.ok (some d)),
         Event.Now (api.Now s1),
         Event.log Level.fatal
           "Transfer can not begin until at least 60 days since initial registration. It has only been %f days\n"
           [Arg.num 60]]) ∧
    (d.IsExpired = false → 60 < daysSince (api.Now s1) d.Created →
      ∃ tail, transferCmd.Run api g (arg0 :: rest) s =
        Event.DomainGetInfo arg0 (Except.ok (some d)) ::
        Event.Now (api.Now s1) ::
        Event.ListZonesContext arg0 g.cloudflareAccount.ID 50
          (api.ListZonesContext s1 arg0 g.cloudflareAccount.ID 50).1 :: tail) ∧
    ((∃ n a p r, Event.ListZonesContext n a p r ∈ transferCmd.Run api g (arg0 :: rest) s) →
      d.IsExpired = false ∧ 60 < daysSince (api.Now s1) d.Created) := by
  have hexp : d.IsExpired = false → daysSince (api.Now s1) d.Created ≤ 60 →
      transferCmd.Run api g (arg0 :: rest) s =
        [Event.DomainGetInfo arg0 (Except.ok (some d)),
         Event.Now (api.Now s1),
         Event.log Level.fatal
           "Transfer can not begin until at least 60 days since initial registration. It has only been %f days\n"
           [Arg.num (daysSince (api.Now s1) d.Created)]] := by
    intro he hd
    simp [transferCmd.Run, transferCmd.eligible, hinfo, he, hd]
  refine ⟨?_, hexp, ?_, ?_, ?_⟩
  · intro he
    simp [transferCmd.Run, transferCmd.eligible, hinfo, he]
  · intro he hsub
    have hts : timeSub (api.Now s1) d.Created = 60 * 24 * Hour := by
      unfold timeSub
      rw [hsub]
      decide
    have hds : daysSince (api.Now s1) d.Created = 60 := by
      unfold daysSince
      rw [hts, Hours_eq]
      simp [Hour]
      norm_num
    refine ⟨hds, ?_⟩
    rw [hexp he (le_of_eq hds), hds]
  · intro he hd
    have hd2 : ¬ daysSince (api.Now s1) d.Created ≤ 60 := not_le.mpr hd
    simp only [transferCmd.Run, transferCmd.eligible, hinfo, he, hd2]
    simp only [Bool.false_eq_true, if_false]
    exact ⟨_, rfl⟩
  · rintro ⟨n, a, p, r, hmem⟩
    cases he : d.IsExpired
    · refine ⟨rfl, ?_⟩
      by_contra hd
      rw [hexp he (not_lt.mp hd)] at hmem
      simp at hmem
    · exfalso
      simp [transferCmd.Run, transferCmd.eligible, hinfo, he] at hmem

/-- Witness of C1: with the clock exactly 60 days after creation the run of
`transfer example.com` stops at the eligibility check. -/
theorem transfer_eligibility_gate_witness :
    daysSince 5184000000000000 exampleDomain.Created = 60 ∧
    transferCmd.Run { exampleApi with Now := fun _ => 5184000000000000 } exampleGlobals
        ["example.com"] () =
      [Event.DomainGetInfo "example.com" (Except.ok (some exampleDomain)),
       Event.Now 5184000000000000,
       Event.log Level.fatal
         "Transfer can not begin until at least 60 days since initial registration. It has only been %f days\n"
         [Arg.num 60]] :=
  (transfer_eligibility_gate { exampleApi with Now := fun _ => 5184000000000000 } exampleGlobals
    "example.com" [] () () exampleDomain rfl).2.2.1 rfl (by decide)

/-! ## Theorems: what precedes the transfer initiation -/

/-- No event of `bailOut` is a transfer initiation. -/
theorem bailOut_not_isTransfer {σ : Type} (api : Api σ) (d : DomainInfo) (format : String)
    (args : List Arg) (s : σ) : ∀ e ∈ bailOut api d format args s, e.isTransfer = false := by
  intro e he
  simp only [bailOut] at he
  split at he
  · simp at he
    rcases he with h | h | h <;> subst h <;> rfl
  · split at he
    · split at he
      · simp at he
        rcases he with h | h | h | h | h <;> subst h <;> rfl
      · simp at he
        rcases he with h | h | h | h | h | h | h <;> subst h <;> rfl
    · simp at he
      rcases he with h | h | h | h | h | h <;> subst h <;> rfl

/-- A decomposition of `e :: l` around an element satisfying `p`, when `e`
does not satisfy `p`, is a decomposition of `l`. -/
theorem cons_eq_split {α : Type} (p : α → Bool) {e x : α} {l pre post : List α}
    (h : e :: l = pre ++ x :: post) (he : p e = false) (hx : p x = true) :
    ∃ pre1, pre = e :: pre1 ∧ l = pre1 ++ x :: post := by
  cases pre with
  | nil =>
    simp only [List.nil_append, List.cons.injEq] at h
    rw [h.1, hx] at he
    cases he
  | cons a pre1 =>
    simp only [List.cons_append, List.cons.injEq] at h
    exact ⟨pre1, by rw [h.1], h.2⟩

/-- A list without elements satisfying `p` has no decomposition around one. -/
theorem not_split_of_forall {α : Type} (p : α → Bool) {x : α} {l pre post : List α}
    (h : l = pre ++ x :: post) (hl : ∀ e ∈ l, p e = false) (hx : p x = true) : False := by
  have hmem : x ∈ l := by rw [h]; simp
  rw [hl x hmem] at hx
  cases hx


theorem initiate_split {σ : Type} (api : Api σ) (g : Globals) (d : DomainInfo) (z : Zone)
    (code : String) (s : σ) {pre post : List Event} {zone : Zone}
    {req : TransferRegistrarDomainRequest} {res : Except Error Bool}
    (h : transferCmd.initiate api g d z code s =
      pre ++ Event.TransferRegistrarDomain zone req res :: post) :
    zone = z ∧ req = transferRequest g d code ∧
    (∀ n l r, Event.DomainSetRegistrarLock n l r ∉ pre) ∧
    (∀ i r, Event.WhoisguardDisable i r ∉ pre) := by
  simp only [transferCmd.initiate] at h
  obtain ⟨pre1, rfl, h1⟩ := cons_eq_split Event.isTransfer h rfl rfl
  cases pre1 with
  | nil =>
    simp only [List.nil_append, List.cons.injEq, Event.TransferRegistrarDomain.injEq] at h1
    refine ⟨h1.1.1.symm, h1.1.2.1.symm, ?_, ?_⟩ <;> simp
  | cons a pre2 =>
    exfalso
    simp only [List.cons_append, List.cons.injEq] at h1
    obtain ⟨-, h2⟩ := h1
    split at h2
    · exact not_split_of_forall Event.isTransfer h2 (bailOut_not_isTransfer _ _ _ _ _) rfl
    · exact not_split_of_forall Event.isTransfer h2 (by simp [Event.isTransfer]) rfl
    · exact not_split_of_forall Event.isTransfer h2 (bailOut_not_isTransfer _ _ _ _ _) rfl

theorem disableGuard_split {σ : Type} (api : Api σ) (g : Globals) (d : DomainInfo) (z : Zone)
    (code : String) (s : σ) {pre post : List Event} {zone : Zone}
    {req : TransferRegistrarDomainRequest} {res : Except Error Bool}
    (h : transferCmd.disableGuard api g d z code s =
      pre ++ Event.TransferRegistrarDomain zone req res :: post) :
    zone = z ∧ req = transferRequest g d code ∧
    (∀ n l r, Event.DomainSetRegistrarLock n l r ∉ pre) ∧
    (d.Whoisguard.Enabled = true → Event.WhoisguardDisable d.Whoisguard.ID none ∈ pre) ∧
    (∀ i r, Event.WhoisguardDisable i r ∈ pre → r = none) := by
  simp only [transferCmd.disableGuard] at h
  split at h
  · obtain ⟨pre1, rfl, h1⟩ := cons_eq_split Event.isTransfer h rfl rfl
    obtain ⟨pre2, rfl, h2⟩ := cons_eq_split Event.isTransfer h1 rfl rfl
    split at h2
    · exact (not_split_of_forall Event.isTransfer h2 (bailOut_not_isTransfer _ _ _ _ _) rfl).elim
    · rename_i hnone
      obtain ⟨hz, hr, hl, hw⟩ := initiate_split api g d z code _ h2
      refine ⟨hz, hr, ?_, ?_, ?_⟩
      · intro n l r hm
        simp at hm
        exact hl n l r hm
      · intro _
        rw [hnone]
        simp
      · intro i r hm
        simp at hm
        rcases hm with hm | hm
        · rw [hm.2, hnone]
        · exact (hw i r hm).elim
  · rename_i hen
    obtain ⟨pre1, rfl, h1⟩ := cons_eq_split Event.isTransfer h rfl rfl
    obtain ⟨hz, hr, hl, hw⟩ := initiate_split api g d z code _ h1
    refine ⟨hz, hr, ?_, ?_, ?_⟩
    · intro n l r hm
      simp at hm
      exact hl n l r hm
    · intro he
      exact (hen he).elim
    · intro i r hm
      simp at hm
      exact (hw i r hm).elim

theorem unlock_split {σ : Type} (api : Api σ) (g : Globals) (d : DomainInfo) (z : Zone)
    (code : String) (s : σ) {pre post : List Event} {zone : Zone}
    {req : TransferRegistrarDomainRequest} {res : Except Error Bool}
    (h : transferCmd.unlock api g d z code s =
      pre ++ Event.TransferRegistrarDomain zone req res :: post) :
    zone = z ∧ req = transferRequest g d code ∧
    (d.IsLocked = true → ∃ r, Event.DomainSetRegistrarLock d.Name false (Except.ok r) ∈ pre) ∧
    (∀ n l r, Event.DomainSetRegistrarLock n l r ∈ pre → ∃ v, r = Except.ok v) ∧
    (d.Whoisguard.Enabled = true → Event.WhoisguardDisable d.Whoisguard.ID none ∈ pre) ∧
    (∀ i r, Event.WhoisguardDisable i r ∈ pre → r = none) := by
  simp only [transferCmd.unlock] at h
  split at h
  · obtain ⟨pre1, rfl, h1⟩ := cons_eq_split Event.isTransfer h rfl rfl
    obtain ⟨pre2, rfl, h2⟩ := cons_eq_split Event.isTransfer h1 rfl rfl
    split at h2
    · exact (not_split_of_forall Event.isTransfer h2 (bailOut_not_isTransfer _ _ _ _ _) rfl).elim
    · rename_i v hok
      obtain ⟨pre3, rfl, h3⟩ := cons_eq_split Event.isTransfer h2 rfl rfl
      obtain ⟨hz, hr, hl, hg, hw⟩ := disableGuard_split api g d z code _ h3
      refine ⟨hz, hr, ?_, ?_, ?_, ?_⟩
      · intro _
        exact ⟨v, by rw [hok]; simp⟩
      · intro n l r hm
        simp at hm
        rcases hm with hm | hm
        · exact ⟨v, by rw [hm.2.2, hok]⟩
        · exact (hl n l r hm).elim
      · intro he
        simp [hg he]
      · intro i r hm
        simp at hm
        exact hw i r hm
  · rename_i hlk
    obtain ⟨pre1, rfl, h1⟩ := cons_eq_split Event.isTransfer h rfl rfl
    obtain ⟨hz, hr, hl, hg, hw⟩ := disableGuard_split api g d z code _ h1
    refine ⟨hz, hr, ?_, ?_, ?_, ?_⟩
    · intro he
      exact (hlk he).elim
    · intro n l r hm
      simp at hm
      exact (hl n l r hm).elim
    · intro he
      simp [hg he]
    · intro i r hm
      simp at hm
      exact hw i r hm

theorem bailOut_countP_isTransfer {σ : Type} (api : Api σ) (d : DomainInfo) (format : String)
    (args : List Arg) (s : σ) : List.countP Event.isTransfer (bailOut api d format args s) = 0 := by
  rw [List.countP_eq_zero]
  intro e he
  rw [bailOut_not_isTransfer api d format args s e he]
  simp

theorem initiate_countP {σ : Type} (api : Api σ) (g : Globals) (d : DomainInfo) (z : Zone)
    (code : String) (s : σ) :
    List.countP Event.isTransfer (transferCmd.initiate api g d z code s) ≤ 1 := by
  simp only [transferCmd.initiate]
  split <;> simp [List.countP_cons, Event.isTransfer, bailOut_countP_isTransfer]

theorem disableGuard_countP {σ : Type} (api : Api σ) (g : Globals) (d : DomainInfo) (z : Zone)
    (code : String) (s : σ) :
    List.countP Event.isTransfer (transferCmd.disableGuard api g d z code s) ≤ 1 := by
  have hi := initiate_countP api g d z code
  simp only [transferCmd.disableGuard]
  split
  · split <;> simp [List.countP_cons, Event.isTransfer, bailOut_countP_isTransfer, hi]
  · simp [List.countP_cons, Event.isTransfer, hi]

theorem unlock_countP {σ : Type} (api : Api σ) (g : Globals) (d : DomainInfo) (z : Zone)
    (code : String) (s : σ) :
    List.countP Event.isTransfer (transferCmd.unlock api g d z code s) ≤ 1 := by
  have hi := disableGuard_countP api g d z code
  simp only [transferCmd.unlock]
  split
  · split <;> simp [List.countP_cons, Event.isTransfer, bailOut_countP_isTransfer, hi]
  · simp [List.countP_cons, Event.isTransfer, hi]

theorem authCode_countP {σ : Type} (api : Api σ) (g : Globals) (d : DomainInfo) (z : Zone)
    (s : σ) :
    List.countP Event.isTransfer (transferCmd.authCode api g d z s) ≤ 1 := by
  simp only [transferCmd.authCode]
  split
  · simp [List.countP_cons, Event.isTransfer]
  · split <;> simp [List.countP_cons, Event.isTransfer, unlock_countP]

theorem eligible_countP {σ : Type} (api : Api σ) (g : Globals) (arg0 : String) (d : DomainInfo)
    (s : σ) :
    List.countP Event.isTransfer (transferCmd.eligible api g arg0 d s) ≤ 1 := by
  simp only [transferCmd.eligible]
  split
  · simp [List.countP_cons, Event.isTransfer]
  · split
    · simp [List.countP_cons, Event.isTransfer]
    · split <;> simp [List.countP_cons, Event.isTransfer, authCode_countP]

theorem Run_countP {σ : Type} (api : Api σ) (g : Globals) (args : List String) (s : σ) :
    List.countP Event.isTransfer (transferCmd.Run api g args s) ≤ 1 := by
  simp only [transferCmd.Run]
  split
  · simp [List.countP_cons, Event.isTransfer]
  · split <;> simp [List.countP_cons, Event.isTransfer, eligible_countP]

/-- Before the transfer initiation inside `authCode`, a line was read and its
stripped form validated. -/
theorem authCode_split {σ : Type} (api : Api σ) (g : Globals) (d : DomainInfo) (z : Zone)
    (s : σ) {pre post : List Event} {zone : Zone}
    {req : TransferRegistrarDomainRequest} {res : Except Error Bool}
    (h : transferCmd.authCode api g d z s =
      pre ++ Event.TransferRegistrarDomain zone req res :: post) :
    ∃ line, zone = z ∧ req = transferRequest g d (stripNewlines line) ∧
    Event.ReadString (line, none) ∈ pre ∧
    Event.CheckRegistrarTransferAuthCode g.clientAccountID d.Name (stripNewlines line)
      (Except.ok true) ∈ pre ∧
    (d.IsLocked = true → ∃ r, Event.DomainSetRegistrarLock d.Name false (Except.ok r) ∈ pre) ∧
    (∀ n l r, Event.DomainSetRegistrarLock n l r ∈ pre → ∃ v, r = Except.ok v) ∧
    (d.Whoisguard.Enabled = true → Event.WhoisguardDisable d.Whoisguard.ID none ∈ pre) ∧
    (∀ i r, Event.WhoisguardDisable i r ∈ pre → r = none) := by
  simp only [transferCmd.authCode] at h
  obtain ⟨pre1, rfl, h1⟩ := cons_eq_split Event.isTransfer h rfl rfl
  obtain ⟨pre2, rfl, h2⟩ := cons_eq_split Event.isTransfer h1 rfl rfl
  obtain ⟨pre3, rfl, h3⟩ := cons_eq_split Event.isTransfer h2 rfl rfl
  split at h3
  · exact (not_split_of_forall Event.isTransfer h3 (by simp [Event.isTransfer]) rfl).elim
  · rename_i line hread
    obtain ⟨pre4, rfl, h4⟩ := cons_eq_split Event.isTransfer h3 rfl rfl
    obtain ⟨pre5, rfl, h5⟩ := cons_eq_split Event.isTransfer h4 rfl rfl
    split at h5
    · exact (not_split_of_forall Event.isTransfer h5 (by simp [Event.isTransfer]) rfl).elim
    · exact (not_split_of_forall Event.isTransfer h5 (by simp [Event.isTransfer]) rfl).elim
    · rename_i hcheck
      obtain ⟨hz, hr, hl, hl2, hg, hg2⟩ := unlock_split api g d z _ _ h5
      refine ⟨line, hz, hr, ?_, ?_, ?_, ?_, ?_, ?_⟩
      · rw [hread]; simp
      · rw [hcheck]; simp
      · intro hk
        obtain ⟨r, hr⟩ := hl hk
        exact ⟨r, by simp [hr]⟩
      · intro n l r hm
        simp at hm
        exact hl2 n l r hm
      · intro he
        simp [hg he]
      · intro i r hm
        simp at hm
        exact hg2 i r hm

/-- Before the transfer initiation inside `eligible`, the eligibility gate and
the zone lookup were passed. -/
theorem eligible_split {σ : Type} (api : Api σ) (g : Globals) (arg0 : String) (d : DomainInfo)
    (s : σ) {pre post : List Event} {zone : Zone}
    {req : TransferRegistrarDomainRequest} {res : Except Error Bool}
    (h : transferCmd.eligible api g arg0 d s =
      pre ++ Event.TransferRegistrarDomain zone req res :: post) :
    ∃ zs now line, d.IsExpired = false ∧
    Event.Now now ∈ pre ∧ 60 < daysSince now d.Created ∧
    Event.ListZonesContext arg0 g.cloudflareAccount.ID 50 (Except.ok (zone :: zs)) ∈ pre ∧
    req = transferRequest g d (stripNewlines line) ∧
    Event.ReadString (line, none) ∈ pre ∧
    Event.CheckRegistrarTransferAuthCode g.clientAccountID d.Name (stripNewlines line)
      (Except.ok true) ∈ pre ∧
    (d.IsLocked = true → ∃ r, Event.DomainSetRegistrarLock d.Name false (Except.ok r) ∈ pre) ∧
    (∀ n l r, Event.DomainSetRegistrarLock n l r ∈ pre → ∃ v, r = Except.ok v) ∧
    (d.Whoisguard.Enabled = true → Event.WhoisguardDisable d.Whoisguard.ID none ∈ pre) ∧
    (∀ i r, Event.WhoisguardDisable i r ∈ pre → r = none) := by
  simp only [transferCmd.eligible] at h
  split at h
  · exact (not_split_of_forall Event.isTransfer h (by simp [Event.isTransfer]) rfl).elim
  · rename_i hexp
    obtain ⟨pre1, rfl, h1⟩ := cons_eq_split Event.isTransfer h rfl rfl
    split at h1
    · exact (not_split_of_forall Event.isTransfer h1 (by simp [Event.isTransfer]) rfl).elim
    · rename_i hdays
      obtain ⟨pre2, rfl, h2⟩ := cons_eq_split Event.isTransfer h1 rfl rfl
      split at h2
      · exact (not_split_of_forall Event.isTransfer h2 (by simp [Event.isTransfer]) rfl).elim
      · exact (not_split_of_forall Event.isTransfer h2 (by simp [Event.isTransfer]) rfl).elim
      · rename_i z zs hzones
        obtain ⟨line, hz, hr, h3, h4, hl, hl2, hg, hg2⟩ := authCode_split api g d z _ h2
        subst hz
        refine ⟨zs, api.Now s, line, by simpa using hexp, by simp, not_le.mp hdays, ?_, hr,
          by simp [h3], by simp [h4], ?_, ?_, ?_, ?_⟩
        · rw [hzones]; simp
        · intro hk
          obtain ⟨r, hr⟩ := hl hk
          exact ⟨r, by simp [hr]⟩
        · intro n l r hm
          simp at hm
          exact hl2 n l r hm
        · intro he
          simp [hg he]
        · intro i r hm
          simp at hm
          exact hg2 i r hm

/-- C2: in every run of `transfer` the transfer initiation is called at most
once, and wherever it is called, the events before it show that every gate
was passed (`GatesPassed`): an argument was present, the lookup of that
argument returned a domain, the domain is not expired, the clock read more
than 60 days after its creation, the zone listing for the argument returned a
non-empty list whose first zone is the one transferred, a line was read
without error, the validation call for the stripped line answered `true`, a
locked domain was unlocked without error, a guarded domain had its guard
disabled without error, and no lock or guard-disable call before it
errored. -/
theorem transfer_initiation_gated {σ : Type} (api : Api σ) (g : Globals) (args : List String)
    (s : σ) :
    List.countP Event.isTransfer (transferCmd.Run api g args s) ≤ 1 ∧
    ∀ pre zone req res post,
      transferCmd.Run api g args s = pre ++ Event.TransferRegistrarDomain zone req res :: post →
      GatesPassed g args pre zone req := by
  refine ⟨Run_countP api g args s, ?_⟩
  intro pre zone req res post h
  simp only [transferCmd.Run] at h
  split at h
  · exact (not_split_of_forall Event.isTransfer h (by simp [Event.isTransfer]) rfl).elim
  · rename_i arg0 rest
    obtain ⟨pre1, rfl, h1⟩ := cons_eq_split Event.isTransfer h rfl rfl
    split at h1
    · exact (not_split_of_forall Event.isTransfer h1 (by simp [Event.isTransfer]) rfl).elim
    · exact (not_split_of_forall Event.isTransfer h1 (by simp [Event.isTransfer]) rfl).elim
    · rename_i d hinfo
      obtain ⟨zs, now, line, he, hn, hd, hz, hr, h3, h4, hl, hl2, hg, hg2⟩ :=
        eligible_split api g arg0 d _ h1
      refine ⟨arg0, d, zs, now, line, rfl, by rw [hinfo]; simp, he, by simp [hn], hd,
        by simp [hz], hr, by simp [h3], by simp [h4], ?_, ?_, ?_, ?_⟩
      · intro hk
        obtain ⟨r, hr⟩ := hl hk
        exact ⟨r, by simp [hr]⟩
      · intro n l r hm
        simp at hm
        exact hl2 n l r hm
      · intro he
        simp [hg he]
      · intro i r hm
        simp at hm
        exact hg2 i r hm

/-- Witness of C2: in the example world the transfer of `example.com` is
initiated as the fifteenth event, and the fourteen events before it show
every gate passed. -/
theorem transfer_initiation_gated_witness :
    GatesPassed exampleGlobals ["example.com"]
      ((transferCmd.Run exampleApi exampleGlobals ["example.com"] ()).take 14) exampleZone
      (transferRequest exampleGlobals exampleDomain " abc123 \r") :=
  (transfer_initiation_gated exampleApi exampleGlobals ["example.com"] ()).2
    ((transferCmd.Run exampleApi exampleGlobals ["example.com"] ()).take 14) exampleZone
    (transferRequest exampleGlobals exampleDomain " abc123 \r") (Except.ok true)
    ((transferCmd.Run exampleApi exampleGlobals ["example.com"] ()).drop 15)
    (by with_unfolding_all rfl)

/-! ## Theorems: steps 1-7 of `transfer` are read-only -/

theorem endsPast_cons {e : Event} {l : List Event} (h : EndsPastPreconditions l) :
    EndsPastPreconditions (e :: l) := by
  obtain ⟨hne, hl⟩ := h
  refine ⟨by simp, ?_⟩
  intro text fargs hlast
  cases l with
  | nil => exact (hne rfl).elim
  | cons a l1 =>
    rw [List.getLast?_cons_cons] at hlast
    exact hl text fargs hlast

theorem bailOut_endsPast {σ : Type} (api : Api σ) (d : DomainInfo) (format : String)
    (args : List Arg) (s : σ) (hf : format ∉ preconditionFailures) :
    EndsPastPreconditions (bailOut api d format args s) := by
  simp only [bailOut]
  apply endsPast_cons
  apply endsPast_cons
  split
  · refine ⟨by simp, ?_⟩
    intro text fargs hlast
    simp at hlast
    rw [← hlast.1]
    decide
  · apply endsPast_cons
    have hdone : EndsPastPreconditions
        [Event.log Level.info "Bailout: Successfully re-enabled WhoisGuard" [],
         Event.log Level.info "Bailout complete, error details to follow" [],
         Event.log Level.fatal format args] := by
      refine ⟨by simp, ?_⟩
      intro text fargs hlast
      simp at hlast
      rw [← hlast.1]
      exact hf
    split
    · apply endsPast_cons
      split
      · refine ⟨by simp, ?_⟩
        intro text fargs hlast
        simp at hlast
        rw [← hlast.1]
        decide
      · exact hdone
    · exact hdone

theorem initiate_endsPast {σ : Type} (api : Api σ) (g : Globals) (d : DomainInfo) (z : Zone)
    (code : String) (s : σ) :
    EndsPastPreconditions (transferCmd.initiate api g d z code s) := by
  simp only [transferCmd.initiate]
  apply endsPast_cons
  apply endsPast_cons
  split
  · exact bailOut_endsPast _ _ _ _ _ (by decide)
  · refine ⟨by simp, ?_⟩
    intro text fargs hlast
    simp at hlast
  · exact bailOut_endsPast _ _ _ _ _ (by decide)

theorem disableGuard_endsPast {σ : Type} (api : Api σ) (g : Globals) (d : DomainInfo) (z : Zone)
    (code : String) (s : σ) :
    EndsPastPreconditions (transferCmd.disableGuard api g d z code s) := by
  simp only [transferCmd.disableGuard]
  split
  · apply endsPast_cons
    apply endsPast_cons
    split
    · exact bailOut_endsPast _ _ _ _ _ (by decide)
    · exact initiate_endsPast _ _ _ _ _ _
  · apply endsPast_cons
    exact initiate_endsPast _ _ _ _ _ _

theorem unlock_endsPast {σ : Type} (api : Api σ) (g : Globals) (d : DomainInfo) (z : Zone)
    (code : String) (s : σ) :
    EndsPastPreconditions (transferCmd.unlock api g d z code s) := by
  simp only [transferCmd.unlock]
  split
  · apply endsPast_cons
    apply endsPast_cons
    split
    · exact bailOut_endsPast _ _ _ _ _ (by decide)
    · apply endsPast_cons
      exact disableGuard_endsPast _ _ _ _ _ _
  · apply endsPast_cons
    exact disableGuard_endsPast _ _ _ _ _ _

theorem readOnly_or_cons {e : Event} {l : List Event} (h1 : e.isStateChanging = false)
    (h2 : e ≠ bailOutEntry) (h : ReadOnly l ∨ EndsPastPreconditions l) :
    ReadOnly (e :: l) ∨ EndsPastPreconditions (e :: l) := by
  rcases h with h | h
  · left
    intro x hx
    rcases List.mem_cons.mp hx with hx | hx
    · rw [hx]
      exact ⟨h1, h2⟩
    · exact h x hx
  · exact Or.inr (endsPast_cons h)

theorem readOnly_nil : ReadOnly [] ∨ EndsPastPreconditions [] :=
  Or.inl (fun _ he => by simp at he)

theorem authCode_readOnly_or {σ : Type} (api : Api σ) (g : Globals) (d : DomainInfo) (z : Zone)
    (s : σ) :
    ReadOnly (transferCmd.authCode api g d z s) ∨
      EndsPastPreconditions (transferCmd.authCode api g d z s) := by
  simp only [transferCmd.authCode]
  refine readOnly_or_cons rfl (by simp [bailOutEntry]) ?_
  refine readOnly_or_cons rfl (by simp [bailOutEntry]) ?_
  refine readOnly_or_cons rfl (by simp [bailOutEntry]) ?_
  split
  · exact readOnly_or_cons rfl (by simp [bailOutEntry]) readOnly_nil
  · refine readOnly_or_cons rfl (by simp [bailOutEntry]) ?_
    refine readOnly_or_cons rfl (by simp [bailOutEntry]) ?_
    split
    · exact readOnly_or_cons rfl (by simp [bailOutEntry]) readOnly_nil
    · exact readOnly_or_cons rfl (by simp [bailOutEntry]) readOnly_nil
    · exact Or.inr (unlock_endsPast _ _ _ _ _ _)

theorem eligible_readOnly_or {σ : Type} (api : Api σ) (g : Globals) (arg0 : String)
    (d : DomainInfo) (s : σ) :
    ReadOnly (transferCmd.eligible api g arg0 d s) ∨
      EndsPastPreconditions (transferCmd.eligible api g arg0 d s) := by
  simp only [transferCmd.eligible]
  split
  · exact readOnly_or_cons rfl (by simp [bailOutEntry]) readOnly_nil
  · refine readOnly_or_cons rfl (by simp [bailOutEntry]) ?_
    split
    · exact readOnly_or_cons rfl (by simp [bailOutEntry]) readOnly_nil
    · refine readOnly_or_cons rfl (by simp [bailOutEntry]) ?_
      split
      · exact readOnly_or_cons rfl (by simp [bailOutEntry]) readOnly_nil
      · exact readOnly_or_cons rfl (by simp [bailOutEntry]) readOnly_nil
      · exact authCode_readOnly_or _ _ _ _ _

theorem Run_readOnly_or {σ : Type} (api : Api σ) (g : Globals) (args : List String) (s : σ) :
    ReadOnly (transferCmd.Run api g args s) ∨
      EndsPastPreconditions (transferCmd.Run api g args s) := by
  simp only [transferCmd.Run]
  split
  · exact readOnly_or_cons rfl (by simp [bailOutEntry]) readOnly_nil
  · refine readOnly_or_cons rfl (by simp [bailOutEntry]) ?_
    split
    · exact readOnly_or_cons rfl (by simp [bailOutEntry]) readOnly_nil
    · exact readOnly_or_cons rfl (by simp [bailOutEntry]) readOnly_nil
    · exact eligible_readOnly_or _ _ _ _ _

/-- C3: a run of `transfer` that ends with the fatal message of one of the
precondition failures of steps 1-7 (missing argument, lookup error, domain not
found, expired domain, too recent registration, zone-listing error, no
matching zone, read error, validation error, invalid code) contains no
state-changing call (no lock or unlock, no guard enable or disable, no
transfer initiation) and never enters `bailOut`. -/
theorem transfer_preconditions_read_only {σ : Type} (api : Api σ) (g : Globals)
    (args : List String) (s : σ) (text : String) (fargs : List Arg)
    (hlast : (transferCmd.Run api g args s).getLast? = some (Event.log Level.fatal text fargs))
    (hpre : text ∈ preconditionFailures) :
    ∀ e ∈ transferCmd.Run api g args s, e.isStateChanging = false ∧ e ≠ bailOutEntry := by
  rcases Run_readOnly_or api g args s with h | h
  · exact h
  · exact (h.2 text fargs hlast hpre).elim

/-- Witness of C3: a run stopped by the invalid-code answer is read-only. -/
theorem transfer_preconditions_read_only_witness :
    (transferCmd.Run invalidCodeApi exampleGlobals ["example.com"] ()).getLast? =
      some (Event.log Level.fatal
        "Cloudflare reported the EPP/auth code \"%s\" is invalid for the domain %s. Please try again."
        [Arg.str " abc123 \r", Arg.str "example.com"]) ∧
    ReadOnly (transferCmd.Run invalidCodeApi exampleGlobals ["example.com"] ()) :=
  ⟨by with_unfolding_all rfl,
   transfer_preconditions_read_only invalidCodeApi exampleGlobals ["example.com"] ()
    "Cloudflare reported the EPP/auth code \"%s\" is invalid for the domain %s. Please try again."
    [Arg.str " abc123 \r", Arg.str "example.com"] (by with_unfolding_all rfl) (by decide)⟩

theorem cons_eq_split_or {α : Type} {e x : α} {l pre post : List α}
    (h : e :: l = pre ++ x :: post) :
    (pre = [] ∧ x = e ∧ post = l) ∨ ∃ pre1, pre = e :: pre1 ∧ l = pre1 ++ x :: post := by
  cases pre with
  | nil =>
    simp only [List.nil_append, List.cons.injEq] at h
    exact Or.inl ⟨rfl, h.1.symm, h.2.symm⟩
  | cons a pre1 =>
    simp only [List.cons_append, List.cons.injEq] at h
    exact Or.inr ⟨pre1, by rw [h.1], h.2⟩

theorem bailOut_not_isStepFailure {σ : Type} (api : Api σ) (d : DomainInfo) (format : String)
    (args : List Arg) (s : σ) : ∀ e ∈ bailOut api d format args s, e.isStepFailure = false := by
  intro e he
  simp only [bailOut] at he
  split at he
  · simp at he
    rcases he with h | h | h <;> subst h <;> rfl
  · split at he
    · split at he
      · simp at he
        rcases he with h | h | h | h | h <;> subst h <;> rfl
      · simp at he
        rcases he with h | h | h | h | h | h | h <;> subst h <;> rfl
    · simp at he
      rcases he with h | h | h | h | h | h <;> subst h <;> rfl

theorem initiate_failure {σ : Type} (api : Api σ) (g : Globals) (d : DomainInfo) (z : Zone)
    (code : String) (s : σ) {pre post : List Event} {x : Event}
    (h : transferCmd.initiate api g d z code s = pre ++ x :: post)
    (hx : x.isStepFailure = true) :
    ∃ s1, post = bailOut api d (triggerMessage d x).1 (triggerMessage d x).2 s1 := by
  simp only [transferCmd.initiate] at h
  obtain ⟨pre1, rfl, h1⟩ := cons_eq_split Event.isStepFailure h rfl hx
  split at h1
  · rename_i e heq
    rcases cons_eq_split_or h1 with ⟨-, rfl, rfl⟩ | ⟨pre2, -, h2⟩
    · rw [heq]
      exact ⟨_, rfl⟩
    · exact (not_split_of_forall Event.isStepFailure h2
        (bailOut_not_isStepFailure _ _ _ _ _) hx).elim
  · rename_i heq
    exact (not_split_of_forall Event.isStepFailure h1
      (by rw [heq]; simp [Event.isStepFailure]) hx).elim
  · rename_i heq
    rcases cons_eq_split_or h1 with ⟨-, rfl, rfl⟩ | ⟨pre2, -, h2⟩
    · rw [heq]
      exact ⟨_, rfl⟩
    · exact (not_split_of_forall Event.isStepFailure h2
        (bailOut_not_isStepFailure _ _ _ _ _) hx).elim

theorem disableGuard_failure {σ : Type} (api : Api σ) (g : Globals) (d : DomainInfo) (z : Zone)
    (code : String) (s : σ) {pre post : List Event} {x : Event}
    (h : transferCmd.disableGuard api g d z code s = pre ++ x :: post)
    (hx : x.isStepFailure = true) :
    ∃ s1, post = bailOut api d (triggerMessage d x).1 (triggerMessage d x).2 s1 := by
  simp only [transferCmd.disableGuard] at h
  split at h
  · obtain ⟨pre1, rfl, h1⟩ := cons_eq_split Event.isStepFailure h rfl hx
    split at h1
    · rename_i e heq
      rcases cons_eq_split_or h1 with ⟨-, rfl, rfl⟩ | ⟨pre2, -, h2⟩
      · rw [heq]
        exact ⟨_, rfl⟩
      · exact (not_split_of_forall Event.isStepFailure h2
          (bailOut_not_isStepFailure _ _ _ _ _) hx).elim
    · rename_i heq
      obtain ⟨pre2, rfl, h2⟩ := cons_eq_split Event.isStepFailure h1 (by rw [heq]; rfl) hx
      exact initiate_failure api g d z code _ h2 hx
  · obtain ⟨pre1, rfl, h1⟩ := cons_eq_split Event.isStepFailure h rfl hx
    exact initiate_failure api g d z code _ h1 hx

theorem unlock_failure {σ : Type} (api : Api σ) (g : Globals) (d : DomainInfo) (z : Zone)
    (code : String) (s : σ) {pre post : List Event} {x : Event}
    (h : transferCmd.unlock api g d z code s = pre ++ x :: post)
    (hx : x.isStepFailure = true) :
    ∃ s1, post = bailOut api d (triggerMessage d x).1 (triggerMessage d x).2 s1 := by
  simp only [transferCmd.unlock] at h
  split at h
  · obtain ⟨pre1, rfl, h1⟩ := cons_eq_split Event.isStepFailure h rfl hx
    split at h1
    · rename_i e heq
      rcases cons_eq_split_or h1 with ⟨-, rfl, rfl⟩ | ⟨pre2, -, h2⟩
      · rw [heq]
        exact ⟨_, rfl⟩
      · exact (not_split_of_forall Event.isStepFailure h2
          (bailOut_not_isStepFailure _ _ _ _ _) hx).elim
    · rename_i v heq
      obtain ⟨pre2, rfl, h2⟩ := cons_eq_split Event.isStepFailure h1 (by rw [heq]; rfl) hx
      obtain ⟨pre3, rfl, h3⟩ := cons_eq_split Event.isStepFailure h2 rfl hx
      exact disableGuard_failure api g d z code _ h3 hx
  · obtain ⟨pre1, rfl, h1⟩ := cons_eq_split Event.isStepFailure h rfl hx
    exact disableGuard_failure api g d z code _ h1 hx

theorem authCode_failure {σ : Type} (api : Api σ) (g : Globals) (d : DomainInfo) (z : Zone)
    (s : σ) {pre post : List Event} {x : Event}
    (h : transferCmd.authCode api g d z s = pre ++ x :: post)
    (hx : x.isStepFailure = true) :
    ∃ s1, post = bailOut api d (triggerMessage d x).1 (triggerMessage d x).2 s1 := by
  simp only [transferCmd.authCode] at h
  obtain ⟨pre1, rfl, h1⟩ := cons_eq_split Event.isStepFailure h rfl hx
  obtain ⟨pre2, rfl, h2⟩ := cons_eq_split Event.isStepFailure h1 rfl hx
  obtain ⟨pre3, rfl, h3⟩ := cons_eq_split Event.isStepFailure h2 rfl hx
  split at h3
  · exact (not_split_of_forall Event.isStepFailure h3 (by simp [Event.isStepFailure]) hx).elim
  · obtain ⟨pre4, rfl, h4⟩ := cons_eq_split Event.isStepFailure h3 rfl hx
    obtain ⟨pre5, rfl, h5⟩ := cons_eq_split Event.isStepFailure h4 rfl hx
    split at h5
    · exact (not_split_of_forall Event.isStepFailure h5 (by simp [Event.isStepFailure]) hx).elim
    · exact (not_split_of_forall Event.isStepFailure h5 (by simp [Event.isStepFailure]) hx).elim
    · exact unlock_failure api g d z _ _ h5 hx

theorem eligible_failure {σ : Type} (api : Api σ) (g : Globals) (arg0 : String) (d : DomainInfo)
    (s : σ) {pre post : List Event} {x : Event}
    (h : transferCmd.eligible api g arg0 d s = pre ++ x :: post)
    (hx : x.isStepFailure = true) :
    ∃ s1, post = bailOut api d (triggerMessage d x).1 (triggerMessage d x).2 s1 := by
  simp only [transferCmd.eligible] at h
  split at h
  · exact (not_split_of_forall Event.isStepFailure h (by simp [Event.isStepFailure]) hx).elim
  · obtain ⟨pre1, rfl, h1⟩ := cons_eq_split Event.isStepFailure h rfl hx
    split at h1
    · exact (not_split_of_forall Event.isStepFailure h1 (by simp [Event.isStepFailure]) hx).elim
    · obtain ⟨pre2, rfl, h2⟩ := cons_eq_split Event.isStepFailure h1 rfl hx
      split at h2
      · exact (not_split_of_forall Event.isStepFailure h2 (by simp [Event.isStepFailure]) hx).elim
      · exact (not_split_of_forall Event.isStepFailure h2 (by simp [Event.isStepFailure]) hx).elim
      · exact authCode_failure api g d _ _ h2 hx

theorem Run_failure {σ : Type} (api : Api σ) (g : Globals) (args : List String) (s : σ)
    {pre post : List Event} {x : Event}
    (h : transferCmd.Run api g args s = pre ++ x :: post)
    (hx : x.isStepFailure = true) :
    ∃ arg0 d s1, args.head? = some arg0 ∧
      pre.head? = some (Event.DomainGetInfo arg0 (Except.ok (some d))) ∧
      post = bailOut api d (triggerMessage d x).1 (triggerMessage d x).2 s1 := by
  simp only [transferCmd.Run] at h
  split at h
  · exact (not_split_of_forall Event.isStepFailure h (by simp [Event.isStepFailure]) hx).elim
  · rename_i arg0 rest
    obtain ⟨pre1, rfl, h1⟩ := cons_eq_split Event.isStepFailure h rfl hx
    split at h1
    · exact (not_split_of_forall Event.isStepFailure h1 (by simp [Event.isStepFailure]) hx).elim
    · exact (not_split_of_forall Event.isStepFailure h1 (by simp [Event.isStepFailure]) hx).elim
    · rename_i d hinfo
      obtain ⟨s1, hs1⟩ := eligible_failure api g arg0 d _ h1 hx
      exact ⟨arg0, d, s1, rfl, by rw [hinfo]; rfl, hs1⟩

/-- The calls and the end of `bailOut`, by the answers of its calls. -/
theorem bailOut_cases {σ : Type} (api : Api σ) (d : DomainInfo) (format : String)
    (fargs : List Arg) (s : σ) :
    (∃ e, (bailOut api d format fargs s).filter Event.isCall =
        [Event.DomainSetRegistrarLock d.Name true (Except.error e)]) ∨
    (∃ v, d.Whoisguard.Enabled = false ∧
      (bailOut api d format fargs s).filter Event.isCall =
        [Event.DomainSetRegistrarLock d.Name true (Except.ok v)] ∧
      (bailOut api d format fargs s).getLast? = some (Event.log Level.fatal format fargs)) ∨
    (∃ v r, d.Whoisguard.Enabled = true ∧
      (bailOut api d format fargs s).filter Event.isCall =
        [Event.DomainSetRegistrarLock d.Name true (Except.ok v),
         Event.WhoisguardEnable d.Whoisguard.ID d.Whoisguard.ForwardedTo r] ∧
      (r = none →
        (bailOut api d format fargs s).getLast? = some (Event.log Level.fatal format fargs))) := by
  simp only [bailOut]
  split
  · rename_i e heq
    left
    exact ⟨e, by simp [List.filter_cons, Event.isCall, heq]⟩
  · rename_i v heq
    right
    split
    · rename_i hen
      right
      refine ⟨v, (api.WhoisguardEnable (api.DomainSetRegistrarLock s d.Name true).2
        d.Whoisguard.ID d.Whoisguard.ForwardedTo).1, hen, ?_, ?_⟩
      · split <;> simp [List.filter_cons, Event.isCall, heq]
      · intro hnone
        simp [hnone]
    · rename_i hen
      left
      exact ⟨v, by simpa using hen, by simp [List.filter_cons, Event.isCall, heq], by simp⟩

/-! ## Theorems: `bailOut` -/

/-- C4 (amended): after every failure of steps 8-10 in a run of `transfer` (an
unlock, guard-disable or transfer-initiation call that errored, or a transfer
initiation that answered `false`), the calls that follow are a lock call for
the domain of the run (`lock = true`) and then, exactly when that lock call
did not error and the domain had its guard enabled, a guard-enable call with
the guard id and forwarding email of the domain; when no compensating call
errored, the run ends with the fatal message of the failure (`Compensation`). -/
theorem bailOut_compensation_order {σ : Type} (api : Api σ) (g : Globals) (args : List String)
    (s : σ) (pre post : List Event) (x : Event)
    (h : transferCmd.Run api g args s = pre ++ x :: post) (hx : x.isStepFailure = true) :
    ∃ arg0 d, args.head? = some arg0 ∧
      pre.head? = some (Event.DomainGetInfo arg0 (Except.ok (some d))) ∧
      Compensation d x post := by
  obtain ⟨arg0, d, s1, ha, hp, hpost⟩ := Run_failure api g args s h hx
  refine ⟨arg0, d, ha, hp, ?_⟩
  rw [hpost]
  exact bailOut_cases api d _ _ s1

/-- Witness of C4: the transfer initiation errors after a successful unlock and
guard disable; the calls after it are the re-lock and then the guard
re-enable, and the run ends with the fatal message of the initiation error. -/
theorem bailOut_compensation_order_witness :
    (((transferCmd.Run transferFailsApi exampleGlobals ["example.com"] ()).drop 15).filter
        Event.isCall =
      [Event.DomainSetRegistrarLock "example.com" true
         (Except.ok { Name := "example.com", IsSuccess := true }),
       Event.WhoisguardEnable 7 "owner@example.com" none] ∧
     (transferCmd.Run transferFailsApi exampleGlobals ["example.com"] ()).getLast? =
       some (Event.log Level.fatal "Error beginning Cloudflare Registrar transfer of %s: %v\n"
         [Arg.str "example.com", Arg.err "transfer refused"])) ∧
    ∃ arg0 d, ["example.com"].head? = some arg0 ∧
      ((transferCmd.Run transferFailsApi exampleGlobals ["example.com"] ()).take 14).head? =
        some (Event.DomainGetInfo arg0 (Except.ok (some d))) ∧
      Compensation d
        (Event.TransferRegistrarDomain exampleZone
          (transferRequest exampleGlobals exampleDomain " abc123 \r")
          (Except.error "transfer refused"))
        ((transferCmd.Run transferFailsApi exampleGlobals ["example.com"] ()).drop 15) :=
  ⟨⟨by with_unfolding_all rfl, by with_unfolding_all rfl⟩,
   bailOut_compensation_order transferFailsApi exampleGlobals ["example.com"] ()
    ((transferCmd.Run transferFailsApi exampleGlobals ["example.com"] ()).take 14)
    ((transferCmd.Run transferFailsApi exampleGlobals ["example.com"] ()).drop 15)
    (Event.TransferRegistrarDomain exampleZone
      (transferRequest exampleGlobals exampleDomain " abc123 \r")
      (Except.error "transfer refused"))
    (by with_unfolding_all rfl) rfl⟩

/-- Counterexample to C4 as stated: the transfer initiation errors for a domain
with its guard enabled and the re-lock call errors; the only call after the
failure is the lock call, and no guard-enable call is made. -/
theorem bailOut_order_counterexample :
    ∃ pre x post,
      transferCmd.Run relockFailsApi exampleGlobals ["example.com"] () = pre ++ x :: post ∧
      x.isStepFailure = true ∧
      pre.head? = some (Event.DomainGetInfo "example.com" (Except.ok (some exampleDomain))) ∧
      exampleDomain.Whoisguard.Enabled = true ∧
      post.filter Event.isCall =
        [Event.DomainSetRegistrarLock "example.com" true (Except.error "lock refused")] :=
  ⟨(transferCmd.Run relockFailsApi exampleGlobals ["example.com"] ()).take 14,
   Event.TransferRegistrarDomain exampleZone
     (transferRequest exampleGlobals exampleDomain " abc123 \r")
     (Except.error "transfer refused"),
   [bailOutEntry,
    Event.DomainSetRegistrarLock "example.com" true (Except.error "lock refused"),
    Event.log Level.fatal "Bailout: Error unlocking domain %s. YOUR DOMAIN IS UNLOCKED!! %v\n"
      [Arg.str "example.com", Arg.err "lock refused"]],
   by with_unfolding_all rfl, rfl, by with_unfolding_all rfl, rfl, rfl⟩

/-- C5: if the re-lock call of `bailOut` errors, `bailOut` consists of its
banner, that call and the fatal "YOUR DOMAIN IS UNLOCKED" message, so no guard
call and no other call follows, whether or not the guard was enabled; if the
re-lock succeeds, the guard was enabled and the guard-enable call errors, the
run ends right after that call with the fatal "YOUR WHOIS INFORMATION IS
UNPROTECTED" message; neither text is the text of a triggering message. -/
theorem bailOut_short_circuit {σ : Type} (api : Api σ) (d : DomainInfo) (format : String)
    (fargs : List Arg) (s : σ) :
    (∀ e, (api.DomainSetRegistrarLock s d.Name true).1 = Except.error e →
      bailOut api d format fargs s =
        [bailOutEntry,
         Event.DomainSetRegistrarLock d.Name true (Except.error e),
         Event.log Level.fatal
           "Bailout: Error unlocking domain %s. YOUR DOMAIN IS UNLOCKED!! %v\n"
           [Arg.str d.Name, Arg.err e]]) ∧
    (∀ v e, (api.DomainSetRegistrarLock s d.Name true).1 = Except.ok v →
      d.Whoisguard.Enabled = true →
      (api.WhoisguardEnable (api.DomainSetRegistrarLock s d.Name true).2 d.Whoisguard.ID
        d.Whoisguard.ForwardedTo).1 = some e →
      bailOut api d format fargs s =
        [bailOutEntry,
         Event.DomainSetRegistrarLock d.Name true (Except.ok v),
         Event.log Level.info "Bailout: Successfully re-locked domain" [],
         Event.WhoisguardEnable d.Whoisguard.ID d.Whoisguard.ForwardedTo (some e),
         Event.log Level.fatal
           "Bailout: Error disabling Whoisguard on domain %s. YOUR WHOIS INFORMATION IS UNPROTECTED!! %v\n"
           [Arg.str d.Name, Arg.err e]]) ∧
    (∀ x : Event,
      (triggerMessage d x).1 ≠
        "Bailout: Error unlocking domain %s. YOUR DOMAIN IS UNLOCKED!! %v\n" ∧
      (triggerMessage d x).1 ≠
        "Bailout: Error disabling Whoisguard on domain %s. YOUR WHOIS INFORMATION IS UNPROTECTED!! %v\n") := by
  refine ⟨?_, ?_, ?_⟩
  · intro e he
    simp [bailOut, he, bailOutEntry]
  · intro v e hv hen he
    simp [bailOut, hv, hen, he, bailOutEntry]
  · intro x
    unfold triggerMessage
    split <;> exact ⟨by simp only []; decide, by simp only []; decide⟩

/-- Witness of C5: `bailOut` in the world where re-locking errors, and in the
world where re-enabling the guard errors. -/
theorem bailOut_short_circuit_witness :
    bailOut relockFailsApi exampleDomain "Cloudflare reported the transfer of %s failed!\n"
        [Arg.str "example.com"] () =
      [bailOutEntry,
       Event.DomainSetRegistrarLock "example.com" true (Except.error "lock refused"),
       Event.log Level.fatal
         "Bailout: Error unlocking domain %s. YOUR DOMAIN IS UNLOCKED!! %v\n"
         [Arg.str "example.com", Arg.err "lock refused"]] ∧
    bailOut guardFailsApi exampleDomain "Cloudflare reported the transfer of %s failed!\n"
        [Arg.str "example.com"] () =
      [bailOutEntry,
       Event.DomainSetRegistrarLock "example.com" true
         (Except.ok { Name := "example.com", IsSuccess := true }),
       Event.log Level.info "Bailout: Successfully re-locked domain" [],
       Event.WhoisguardEnable 7 "owner@example.com" (some "guard refused"),
       Event.log Level.fatal
         "Bailout: Error disabling Whoisguard on domain %s. YOUR WHOIS INFORMATION IS UNPROTECTED!! %v\n"
         [Arg.str "example.com", Arg.err "guard refused"]] :=
  ⟨(bailOut_short_circuit relockFailsApi exampleDomain
      "Cloudflare reported the transfer of %s failed!\n" [Arg.str "example.com"] ()).1
      "lock refused" rfl,
   (bailOut_short_circuit guardFailsApi exampleDomain
      "Cloudflare reported the transfer of %s failed!\n" [Arg.str "example.com"] ()).2.1
      { Name := "example.com", IsSuccess := true } "guard refused" rfl rfl rfl⟩

/-! ## Theorems: the auth code -/

theorem replaceAll_newline (l : List Char) :
    replaceAll ['\n'] [] 0 l = l.filter (fun c => c != '\n') := by
  induction l with
  | nil => rfl
  | cons c cs ih =>
    by_cases hc : c = '\n'
    · subst hc
      simp [replaceAll, List.isPrefixOf, ih]
    · have hc2 : ¬ '\n' = c := fun h => hc h.symm
      simp [replaceAll, List.isPrefixOf, ih, hc, hc2]

theorem stripNewlines_data (line : String) :
    (stripNewlines line).data = line.data.filter (fun c => c != '\n') := by
  simp [stripNewlines, replaceAll_newline]

theorem bailOut_afterCode {σ : Type} (api : Api σ) (d : DomainInfo) (format : String)
    (args : List Arg) (s : σ) (code : String) :
    ∀ e ∈ bailOut api d format args s, e.afterCode code := by
  intro e he
  simp only [bailOut] at he
  split at he
  · simp at he
    rcases he with h | h | h <;> subst h <;> trivial
  · split at he
    · split at he
      · simp at he
        rcases he with h | h | h | h | h <;> subst h <;> trivial
      · simp at he
        rcases he with h | h | h | h | h | h | h <;> subst h <;> trivial
    · simp at he
      rcases he with h | h | h | h | h | h <;> subst h <;> trivial

theorem afterCode_cons {code : String} {e : Event} {l : List Event} (he : e.afterCode code)
    (hl : ∀ x ∈ l, x.afterCode code) : ∀ x ∈ e :: l, x.afterCode code := by
  intro x hx
  rcases List.mem_cons.mp hx with hx | hx
  · rw [hx]; exact he
  · exact hl x hx

theorem initiate_afterCode {σ : Type} (api : Api σ) (g : Globals) (d : DomainInfo) (z : Zone)
    (code : String) (s : σ) :
    ∀ e ∈ transferCmd.initiate api g d z code s, e.afterCode code := by
  simp only [transferCmd.initiate]
  refine afterCode_cons trivial (afterCode_cons rfl ?_)
  split
  · exact bailOut_afterCode _ _ _ _ _ _
  · exact afterCode_cons trivial (fun _ h => by simp at h)
  · exact bailOut_afterCode _ _ _ _ _ _

theorem disableGuard_afterCode {σ : Type} (api : Api σ) (g : Globals) (d : DomainInfo)
    (z : Zone) (code : String) (s : σ) :
    ∀ e ∈ transferCmd.disableGuard api g d z code s, e.afterCode code := by
  simp only [transferCmd.disableGuard]
  split
  · refine afterCode_cons trivial (afterCode_cons trivial ?_)
    split
    · exact bailOut_afterCode _ _ _ _ _ _
    · exact initiate_afterCode _ _ _ _ _ _
  · exact afterCode_cons trivial (initiate_afterCode _ _ _ _ _ _)

theorem unlock_afterCode {σ : Type} (api : Api σ) (g : Globals) (d : DomainInfo)
    (z : Zone) (code : String) (s : σ) :
    ∀ e ∈ transferCmd.unlock api g d z code s, e.afterCode code := by
  simp only [transferCmd.unlock]
  split
  · refine afterCode_cons trivial (afterCode_cons trivial ?_)
    split
    · exact bailOut_afterCode _ _ _ _ _ _
    · exact afterCode_cons trivial (disableGuard_afterCode _ _ _ _ _ _)
  · exact afterCode_cons trivial (disableGuard_afterCode _ _ _ _ _ _)

theorem authCode_consistent {σ : Type} (api : Api σ) (g : Globals) (d : DomainInfo) (z : Zone)
    (s : σ) : CodeConsistent g (transferCmd.authCode api g d z s) := by
  intro line hread
  simp only [transferCmd.authCode] at hread ⊢
  split at hread
  · rename_i l0 e0 heq
    simp [heq] at hread
  · rename_i line0 heq
    have hline : line = line0 := by
      simp [heq] at hread
      rcases hread with hread | hread
      · exact hread
      · exfalso
        split at hread
        · simp at hread
        · simp at hread
        · exact unlock_afterCode api g d z _ _ _ hread
    subst hline
    refine ⟨⟨d.Name, (api.CheckRegistrarTransferAuthCode (api.ReadString s).2
      g.clientAccountID d.Name (stripNewlines line)).1, by simp⟩, ?_, ?_⟩
    · intro acc name code res hm
      simp at hm
      rcases hm with hm | hm
      · exact hm.2.2.1
      · exfalso
        split at hm
        · simp at hm
        · simp at hm
        · exact unlock_afterCode api g d z _ _ _ hm
    · intro zone req res hm
      simp at hm
      split at hm
      · simp at hm
      · simp at hm
      · exact unlock_afterCode api g d z _ _ _ hm

theorem consistent_cons {g : Globals} {e : Event} {l : List Event} (h : CodeConsistent g l)
    (he : ∀ r, e ≠ Event.ReadString r)
    (he2 : ∀ a n c r, e ≠ Event.CheckRegistrarTransferAuthCode a n c r)
    (he3 : ∀ z q r, e ≠ Event.TransferRegistrarDomain z q r) :
    CodeConsistent g (e :: l) := by
  intro line hread
  have hl : Event.ReadString (line, none) ∈ l := by
    rcases List.mem_cons.mp hread with hx | hx
    · exact (he _ hx.symm).elim
    · exact hx
  obtain ⟨⟨name, res, h1⟩, h2, h3⟩ := h line hl
  refine ⟨⟨name, res, List.mem_cons_of_mem _ h1⟩, ?_, ?_⟩
  · intro acc name code res hm
    rcases List.mem_cons.mp hm with hx | hx
    · exact (he2 _ _ _ _ hx.symm).elim
    · exact h2 acc name code res hx
  · intro zone req res hm
    rcases List.mem_cons.mp hm with hx | hx
    · exact (he3 _ _ _ hx.symm).elim
    · exact h3 zone req res hx

theorem consistent_nil (g : Globals) : CodeConsistent g [] := by
  intro line hread
  simp at hread

theorem eligible_consistent {σ : Type} (api : Api σ) (g : Globals) (arg0 : String)
    (d : DomainInfo) (s : σ) : CodeConsistent g (transferCmd.eligible api g arg0 d s) := by
  simp only [transferCmd.eligible]
  split
  · exact consistent_cons (consistent_nil g) (by simp) (by simp) (by simp)
  · refine consistent_cons ?_ (by simp) (by simp) (by simp)
    split
    · exact consistent_cons (consistent_nil g) (by simp) (by simp) (by simp)
    · refine consistent_cons ?_ (by simp) (by simp) (by simp)
      split
      · exact consistent_cons (consistent_nil g) (by simp) (by simp) (by simp)
      · exact consistent_cons (consistent_nil g) (by simp) (by simp) (by simp)
      · exact authCode_consistent _ _ _ _ _

theorem Run_consistent {σ : Type} (api : Api σ) (g : Globals) (args : List String) (s : σ) :
    CodeConsistent g (transferCmd.Run api g args s) := by
  simp only [transferCmd.Run]
  split
  · exact consistent_cons (consistent_nil g) (by simp) (by simp) (by simp)
  · refine consistent_cons ?_ (by simp) (by simp) (by simp)
    split
    · exact consistent_cons (consistent_nil g) (by simp) (by simp) (by simp)
    · exact consistent_cons (consistent_nil g) (by simp) (by simp) (by simp)
    · exact eligible_consistent _ _ _ _ _

/-- C9: in a run of `transfer` in which the line `line` was read without
error, the validation call is made with `stripNewlines line`, every validation
call and every transfer initiation of the run carries exactly that code, the
code is `line` with its newline characters removed and every other character
kept in place, and it contains no newline. -/
theorem auth_code_consistency {σ : Type} (api : Api σ) (g : Globals) (args : List String)
    (s : σ) (line : String)
    (hread : Event.ReadString (line, none) ∈ transferCmd.Run api g args s) :
    (∃ name res, Event.CheckRegistrarTransferAuthCode g.clientAccountID name
      (stripNewlines line) res ∈ transferCmd.Run api g args s) ∧
    (∀ acc name code res,
      Event.CheckRegistrarTransferAuthCode acc name code res ∈ transferCmd.Run api g args s →
      code = stripNewlines line) ∧
    (∀ zone req res,
      Event.TransferRegistrarDomain zone req res ∈ transferCmd.Run api g args s →
      req.AuthCode = stripNewlines line) ∧
    (stripNewlines line).data = line.data.filter (fun c => c != '\n') ∧
    '\n' ∉ (stripNewlines line).data := by
  obtain ⟨h1, h2, h3⟩ := Run_consistent api g args s line hread
  refine ⟨h1, h2, h3, stripNewlines_data line, ?_⟩
  rw [stripNewlines_data]
  simp

/-- Witness of C9: the line `" abc123 \r\n"` is validated and transferred as
`" abc123 \r"`: the carriage return and the spaces are kept. -/
theorem auth_code_consistency_witness :
    stripNewlines " abc123 \r\n" = " abc123 \r" ∧
    Event.CheckRegistrarTransferAuthCode "acct" "example.com" " abc123 \r" (Except.ok true) ∈
      transferCmd.Run exampleApi exampleGlobals ["example.com"] () ∧
    Event.TransferRegistrarDomain exampleZone
      (transferRequest exampleGlobals exampleDomain " abc123 \r") (Except.ok true) ∈
      transferCmd.Run exampleApi exampleGlobals ["example.com"] () ∧
    ((∃ name res, Event.CheckRegistrarTransferAuthCode exampleGlobals.clientAccountID name
      (stripNewlines " abc123 \r\n") res ∈
        transferCmd.Run exampleApi exampleGlobals ["example.com"] ()) ∧
    (∀ acc name code res,
      Event.CheckRegistrarTransferAuthCode acc name code res ∈
        transferCmd.Run exampleApi exampleGlobals ["example.com"] () →
      code = stripNewlines " abc123 \r\n") ∧
    (∀ zone req res,
      Event.TransferRegistrarDomain zone req res ∈
        transferCmd.Run exampleApi exampleGlobals ["example.com"] () →
      req.AuthCode = stripNewlines " abc123 \r\n") ∧
    (stripNewlines " abc123 \r\n").data =
      (" abc123 \r\n" : String).data.filter (fun c => c != '\n') ∧
    '\n' ∉ (stripNewlines " abc123 \r\n").data) :=
  ⟨by decide, by with_unfolding_all decide, by with_unfolding_all decide,
   auth_code_consistency exampleApi exampleGlobals ["example.com"] () " abc123 \r\n"
    (by with_unfolding_all decide)⟩

/-! ## Theorems: the `point` command -/

/-- The helper `equal` decides equality of the two sequences. -/
theorem equal_iff (a b : List String) : equal a b = true ↔ a = b := by
  induction a generalizing b with
  | nil => cases b <;> simp [equal]
  | cons x xs ih =>
    cases b with
    | nil => simp [equal]
    | cons y ys =>
      by_cases hxy : x = y
      · simp [equal, hxy, ih]
      · simp [equal, hxy]

/-- The helper `contains` decides membership. -/
theorem contains_iff (l : List String) (e : String) : contains l e = true ↔ e ∈ l := by
  induction l with
  | nil => simp [contains]
  | cons a rest ih =>
    by_cases h : a = e
    · simp [contains, h]
    · have h2 : ¬ e = a := fun h3 => h h3.symm
      simp [contains, h, h2, ih]

/-- The events of one pass of the loop body: the create-zone call comes first,
and is the only one. -/
theorem addZone_createdNames {σ : Type} (api : Api σ) (g : Globals)
    (parse : String → Except Error DomainName) (entry : String × List String) (s : σ) :
    createdNames (pointCmd.addZone api g parse entry s).1 = [entry.1] := by
  simp only [pointCmd.addZone]
  split
  · simp [createdNames, Event.createdName]
  · split
    · split
      · simp [createdNames, Event.createdName]
      · split
        · simp [createdNames, Event.createdName]
        · split <;> simp [createdNames, Event.createdName]
    · simp [createdNames, Event.createdName]

/-- The loop body neither ends the process nor looks a domain up. -/
theorem addZone_not_terminal {σ : Type} (api : Api σ) (g : Globals)
    (parse : String → Except Error DomainName) (entry : String × List String) (s : σ) :
    ∀ e ∈ (pointCmd.addZone api g parse entry s).1,
      e.isTerminal = false ∧ e.isLookup = false := by
  intro e he
  simp only [pointCmd.addZone] at he
  split at he
  · simp at he
    rcases he with h | h <;> subst h <;> exact ⟨rfl, rfl⟩
  · split at he
    · split at he
      · simp at he
        rcases he with h | h | h <;> subst h <;> exact ⟨rfl, rfl⟩
      · split at he
        · simp at he
          rcases he with h | h | h | h <;> subst h <;> exact ⟨rfl, rfl⟩
        · split at he
          · simp at he
            rcases he with h | h | h | h <;> subst h <;> exact ⟨rfl, rfl⟩
          · simp at he
            rcases he with h | h | h <;> subst h <;> exact ⟨rfl, rfl⟩
    · simp at he
      subst he
      exact ⟨rfl, rfl⟩

/-- The second loop calls create-zone once per entry, in the order of the
entries. -/
theorem addZones_createdNames {σ : Type} (api : Api σ) (g : Globals)
    (parse : String → Except Error DomainName) (entries : List (String × List String)) (s : σ) :
    createdNames (pointCmd.addZones api g parse entries s) = entries.map Prod.fst := by
  induction entries generalizing s with
  | nil => rfl
  | cons entry rest ih =>
    simp only [pointCmd.addZones, createdNames, List.filterMap_append, List.map_cons]
    have h1 := addZone_createdNames api g parse entry s
    have h2 := ih (pointCmd.addZone api g parse entry s).2
    simp only [createdNames] at h1 h2
    rw [h1, h2]
    rfl

/-- The second loop neither ends the process nor looks a domain up. -/
theorem addZones_not_terminal {σ : Type} (api : Api σ) (g : Globals)
    (parse : String → Except Error DomainName) (entries : List (String × List String)) (s : σ) :
    ∀ e ∈ pointCmd.addZones api g parse entries s,
      e.isTerminal = false ∧ e.isLookup = false := by
  induction entries generalizing s with
  | nil =>
    intro e he
    simp [pointCmd.addZones] at he
  | cons entry rest ih =>
    intro e he
    simp only [pointCmd.addZones, List.mem_append] at he
    rcases he with he | he
    · exact addZone_not_terminal api g parse entry s e he
    · exact ih _ e he

/-- The keys of a map after an assignment. -/
theorem set_keys (m : StringMap) (k : String) (v : List String) :
    (StringMap.set m k v).map Prod.fst =
      if k ∈ m.map Prod.fst then m.map Prod.fst else m.map Prod.fst ++ [k] := by
  induction m with
  | nil => simp [StringMap.set]
  | cons e rest ih =>
    by_cases h : e.1 = k
    · simp [StringMap.set, h]
    · have h2 : ¬ k = e.1 := fun h3 => h h3.symm
      simp only [StringMap.set, h, if_false, List.map_cons, ih, List.mem_cons, h2, false_or]
      split <;> simp

/-- An assignment keeps the keys of a map distinct. -/
theorem set_keys_nodup (m : StringMap) (k : String) (v : List String)
    (h : (m.map Prod.fst).Nodup) : ((StringMap.set m k v).map Prod.fst).Nodup := by
  rw [set_keys]
  split
  · exact h
  · rename_i hk
    rw [List.nodup_append]
    refine ⟨h, by simp, ?_⟩
    intro a ha hb
    simp at hb
    subst hb
    exact hk ha

/-- The keys after an assignment are the old keys and the assigned key. -/
theorem mem_set_keys (m : StringMap) (k : String) (v : List String) (x : String) :
    x ∈ (StringMap.set m k v).map Prod.fst ↔ x ∈ m.map Prod.fst ∨ x = k := by
  rw [set_keys]
  split
  · rename_i hk
    constructor
    · exact Or.inl
    · rintro (h | h)
      · exact h
      · rw [h]; exact hk
  · simp

/-- The first loop creates no zone and updates no nameservers. -/
theorem gather_events {σ : Type} (api : Api σ) (cf : List String)
    (ds : List DomainGetListResult) (m : StringMap) (dl : List String) (s : σ) :
    ∀ e ∈ (pointCmd.gather api cf ds m dl s).1,
      e.isCreateZone = false ∧ e.isNameserverUpdate = false := by
  induction ds generalizing m dl s with
  | nil =>
    intro e he
    simp [pointCmd.gather] at he
  | cons dom rest ih =>
    intro e he
    simp only [pointCmd.gather] at he
    split at he
    · exact ih _ _ _ e he
    · split at he
      · simp at he
        rcases he with h | h <;> subst h <;> exact ⟨rfl, rfl⟩
      · simp at he
        rcases he with h | h <;> subst h <;> exact ⟨rfl, rfl⟩
      · simp only [List.mem_cons] at he
        rcases he with h | h | h
        · subst h; exact ⟨rfl, rfl⟩
        · subst h; exact ⟨rfl, rfl⟩
        · exact ih _ _ _ e h

/-- When every listed domain has a zone, the first loop does nothing. -/
theorem gather_skip_all {σ : Type} (api : Api σ) (cf : List String)
    (ds : List DomainGetListResult) (m : StringMap) (dl : List String) (s : σ)
    (h : ∀ dom ∈ ds, contains cf dom.Name = true) :
    pointCmd.gather api cf ds m dl s = ([], some (m, dl, s)) := by
  induction ds with
  | nil => rfl
  | cons dom rest ih =>
    have hd := h dom (by simp)
    simp only [pointCmd.gather, hd, if_true]
    exact ih (fun x hx => h x (List.mem_cons_of_mem _ hx))

/-- One pass of the first loop for a domain that already has a zone. -/
theorem gather_cons_skip {σ : Type} (api : Api σ) (cf : List String)
    (dom : DomainGetListResult) (rest : List DomainGetListResult) (m : StringMap)
    (dl : List String) (s : σ) (hc : contains cf dom.Name = true) :
    pointCmd.gather api cf (dom :: rest) m dl s = pointCmd.gather api cf rest m dl s := by
  simp [pointCmd.gather, hc]

/-- One pass of the first loop for a domain whose lookup errors. -/
theorem gather_cons_error {σ : Type} (api : Api σ) (cf : List String)
    (dom : DomainGetListResult) (rest : List DomainGetListResult) (m : StringMap)
    (dl : List String) (s : σ) (hc : contains cf dom.Name = false) (e : Error)
    (hinfo : (api.DomainGetInfo s dom.Name).1 = Except.error e) :
    pointCmd.gather api cf (dom :: rest) m dl s =
      ([Event.DomainGetInfo dom.Name (Except.error e),
        Event.log Level.fatal "Error getting Namecheap domain info for domain:"
          [Arg.str dom.Name, Arg.err e]], none) := by
  simp [pointCmd.gather, hc, hinfo]

/-- One pass of the first loop for a domain whose lookup returns nothing. -/
theorem gather_cons_nil {σ : Type} (api : Api σ) (cf : List String)
    (dom : DomainGetListResult) (rest : List DomainGetListResult) (m : StringMap)
    (dl : List String) (s : σ) (hc : contains cf dom.Name = false)
    (hinfo : (api.DomainGetInfo s dom.Name).1 = Except.ok none) :
    pointCmd.gather api cf (dom :: rest) m dl s =
      ([Event.DomainGetInfo dom.Name (Except.ok none), Event.panic], none) := by
  simp [pointCmd.gather, hc, hinfo]

/-- One pass of the first loop for a domain whose lookup succeeds. -/
theorem gather_cons_ok {σ : Type} (api : Api σ) (cf : List String)
    (dom : DomainGetListResult) (rest : List DomainGetListResult) (m : StringMap)
    (dl : List String) (s : σ) (hc : contains cf dom.Name = false) (info : DomainInfo)
    (hinfo : (api.DomainGetInfo s dom.Name).1 = Except.ok (some info)) :
    pointCmd.gather api cf (dom :: rest) m dl s =
      (Event.DomainGetInfo dom.Name (Except.ok (some info)) ::
        Event.log Level.info "Namecheap Domain:"
          [Arg.str info.Name, Arg.str "has name servers:",
           Arg.str (String.intercalate ", " info.Nameservers)] ::
        (pointCmd.gather api cf rest (StringMap.set m info.Name info.Nameservers)
          (dl ++ [info.Name]) (api.DomainGetInfo s dom.Name).2).1,
       (pointCmd.gather api cf rest (StringMap.set m info.Name info.Nameservers)
          (dl ++ [info.Name]) (api.DomainGetInfo s dom.Name).2).2) := by
  simp [pointCmd.gather, hc, hinfo]

/-- What a completed pass of the first loop leaves behind. -/
theorem gather_some {σ : Type} (api : Api σ) (cf : List String)
    (ds : List DomainGetListResult) (m : StringMap) (dl : List String) (s : σ)
    (m1 : StringMap) (dl1 : List String) (s1 : σ)
    (h : (pointCmd.gather api cf ds m dl s).2 = some (m1, dl1, s1)) :
    (∀ e ∈ (pointCmd.gather api cf ds m dl s).1, e.isTerminal = false) ∧
    (∀ n r, Event.DomainGetInfo n r ∈ (pointCmd.gather api cf ds m dl s).1 →
      ∃ info, r = Except.ok (some info)) ∧
    (∀ dom ∈ ds, contains cf dom.Name = false →
      ∃ info, Event.DomainGetInfo dom.Name (Except.ok (some info)) ∈
        (pointCmd.gather api cf ds m dl s).1) ∧
    (∀ k ∈ m1.map Prod.fst, k ∈ m.map Prod.fst ∨
      ∃ dom ∈ ds, contains cf dom.Name = false ∧
        ∃ info, Event.DomainGetInfo dom.Name (Except.ok (some info)) ∈
          (pointCmd.gather api cf ds m dl s).1 ∧ info.Name = k) ∧
    ((m.map Prod.fst).Nodup → (m1.map Prod.fst).Nodup) := by
  induction ds generalizing m dl s with
  | nil =>
    simp only [pointCmd.gather, Option.some.injEq, Prod.mk.injEq] at h
    obtain ⟨rfl, -, -⟩ := h
    simp [pointCmd.gather]
  | cons dom rest ih =>
    cases hc : contains cf dom.Name
    · rcases hinfo : (api.DomainGetInfo s dom.Name).1 with e0 | _ | info
      · rw [gather_cons_error api cf dom rest m dl s hc e0 hinfo] at h
        simp at h
      · rw [gather_cons_nil api cf dom rest m dl s hc hinfo] at h
        simp at h
      · rw [gather_cons_ok api cf dom rest m dl s hc info hinfo] at h ⊢
        obtain ⟨h1, h2, h3, h4, h5⟩ := ih _ _ _ h
        refine ⟨?_, ?_, ?_, ?_, ?_⟩
        · intro e he
          simp only [List.mem_cons] at he
          rcases he with he | he | he
          · subst he; rfl
          · subst he; rfl
          · exact h1 e he
        · intro n r hm
          simp only [List.mem_cons] at hm
          rcases hm with hm | hm | hm
          · simp at hm
            exact ⟨info, hm.2⟩
          · simp at hm
          · exact h2 n r hm
        · intro d hd hcd
          rcases List.mem_cons.mp hd with hd | hd
          · subst hd
            exact ⟨info, by simp⟩
          · obtain ⟨i, hi⟩ := h3 d hd hcd
            exact ⟨i, by simp [hi]⟩
        · intro k hk
          rcases h4 k hk with hk | ⟨d, hd, hcd, i, hi, hik⟩
          · rcases (mem_set_keys _ _ _ _).mp hk with hk | hk
            · exact Or.inl hk
            · exact Or.inr ⟨dom, by simp, hc, info, by simp, hk.symm⟩
          · exact Or.inr ⟨d, List.mem_cons_of_mem _ hd, hcd, i, by simp [hi], hik⟩
        · intro hn
          exact h5 (set_keys_nodup _ _ _ hn)
    · rw [gather_cons_skip api cf dom rest m dl s hc] at h ⊢
      obtain ⟨h1, h2, h3, h4, h5⟩ := ih _ _ _ h
      refine ⟨h1, h2, ?_, ?_, h5⟩
      · intro d hd hcd
        rcases List.mem_cons.mp hd with hd | hd
        · subst hd
          rw [hc] at hcd
          cases hcd
        · exact h3 d hd hcd
      · intro k hk
        rcases h4 k hk with hk | ⟨d, hd, hcd, hinfo⟩
        · exact Or.inl hk
        · exact Or.inr ⟨d, List.mem_cons_of_mem _ hd, hcd, hinfo⟩

/-- What an interrupted pass of the first loop looks like. -/
theorem gather_error {σ : Type} (api : Api σ) (cf : List String)
    (ds : List DomainGetListResult) (m : StringMap) (dl : List String) (s : σ) (n : String)
    (e : Error)
    (h : Event.DomainGetInfo n (Except.error e) ∈ (pointCmd.gather api cf ds m dl s).1) :
    (pointCmd.gather api cf ds m dl s).2 = none ∧
    (pointCmd.gather api cf ds m dl s).1.getLast? =
      some (Event.log Level.fatal "Error getting Namecheap domain info for domain:"
        [Arg.str n, Arg.err e]) := by
  induction ds generalizing m dl s with
  | nil => simp [pointCmd.gather] at h
  | cons dom rest ih =>
    cases hc : contains cf dom.Name
    · rcases hinfo : (api.DomainGetInfo s dom.Name).1 with e0 | _ | info
      · rw [gather_cons_error api cf dom rest m dl s hc e0 hinfo] at h ⊢
        simp at h
        obtain ⟨rfl, rfl⟩ := h
        simp
      · rw [gather_cons_nil api cf dom rest m dl s hc hinfo] at h
        simp at h
      · rw [gather_cons_ok api cf dom rest m dl s hc info hinfo] at h ⊢
        simp only [List.mem_cons] at h
        rcases h with h | h | h
        · simp at h
        · simp at h
        · obtain ⟨h1, h2⟩ := ih _ _ _ h
          refine ⟨h1, ?_⟩
          have hne : (pointCmd.gather api cf rest (StringMap.set m info.Name info.Nameservers)
              (dl ++ [info.Name]) (api.DomainGetInfo s dom.Name).2).1 ≠ [] := by
            intro hnil
            rw [hnil] at h
            simp at h
          obtain ⟨a, l, hal⟩ := List.exists_cons_of_ne_nil hne
          rw [hal] at h2 ⊢
          simp only [List.getLast?_cons_cons]
          exact h2
    · rw [gather_cons_skip api cf dom rest m dl s hc] at h ⊢
      exact ih _ _ _ h

/-- A decomposition of `a ++ l` around an element satisfying `p`, when no
element of `a` satisfies `p`, is a decomposition of `l`. -/
theorem append_eq_split {α : Type} (p : α → Bool) {x : α} {a l pre post : List α}
    (h : a ++ l = pre ++ x :: post) (ha : ∀ e ∈ a, p e = false) (hx : p x = true) :
    ∃ pre1, pre = a ++ pre1 ∧ l = pre1 ++ x :: post := by
  induction a generalizing pre with
  | nil => exact ⟨pre, rfl, h⟩
  | cons e a1 ih =>
    obtain ⟨pre1, rfl, h1⟩ := cons_eq_split p h (ha e (by simp)) hx
    obtain ⟨pre2, rfl, h2⟩ := ih h1 (fun y hy => ha y (List.mem_cons_of_mem _ hy))
    exact ⟨pre2, rfl, h2⟩

/-- Only create-zone calls have a created name. -/
theorem createdName_eq_none {e : Event} (h : e.isCreateZone = false) : e.createdName = none := by
  cases e <;> first | rfl | cases h

/-- A run without create-zone calls creates no names. -/
theorem createdNames_eq_nil {l : List Event} (h : ∀ e ∈ l, e.isCreateZone = false) :
    createdNames l = [] := by
  induction l with
  | nil => rfl
  | cons e l1 ih =>
    simp only [createdNames, List.filterMap_cons, createdName_eq_none (h e (by simp))]
    exact ih (fun y hy => h y (List.mem_cons_of_mem _ hy))

/-- The first loop creates no zone. -/
theorem gather_createdNames {σ : Type} (api : Api σ) (cf : List String)
    (ds : List DomainGetListResult) (m : StringMap) (dl : List String) (s : σ) :
    createdNames (pointCmd.gather api cf ds m dl s).1 = [] :=
  createdNames_eq_nil (fun e he => (gather_events api cf ds m dl s e he).1)

/-- The first loop updates no nameservers. -/
theorem gather_updates {σ : Type} (api : Api σ) (cf : List String)
    (ds : List DomainGetListResult) (m : StringMap) (dl : List String) (s : σ) :
    (pointCmd.gather api cf ds m dl s).1.filter Event.isNameserverUpdate = [] := by
  rw [List.filter_eq_nil_iff]
  intro e he
  rw [(gather_events api cf ds m dl s e he).2]
  simp

/-- The run of `point` after the two listings have answered. -/
theorem pointRun_eq {σ : Type} (api : Api σ) (g : Globals)
    (parse : String → Except Error DomainName) (rangeOrder : StringMap → StringMap)
    (s s1 s2 : σ) (zones : List Zone) (ds : List DomainGetListResult) (err : Option Error)
    (hz : api.ListZonesContext s "" g.cloudflareAccount.ID 50 = (Except.ok zones, s1))
    (hl : api.DomainsGetList s1 = ((ds, err), s2)) :
    pointCmd.Run api g parse rangeOrder s =
      Event.ListZonesContext "" g.cloudflareAccount.ID 50 (Except.ok zones) ::
      Event.DomainsGetList (ds, err) ::
      pointCmd.addMissing api g parse rangeOrder (zones.map Zone.Name) ds s2 := by
  simp [pointCmd.Run, hz, hl]

/-- The create-zone calls of `addMissing`, when the first loop completes. -/
theorem addMissing_createdNames_some {σ : Type} (api : Api σ) (g : Globals)
    (parse : String → Except Error DomainName) (rangeOrder : StringMap → StringMap)
    (cf : List String) (ds : List DomainGetListResult) (s : σ)
    (m : StringMap) (dl : List String) (s1 : σ)
    (h : (pointCmd.gather api cf ds [] [] s).2 = some (m, dl, s1)) :
    createdNames (pointCmd.addMissing api g parse rangeOrder cf ds s) =
      (rangeOrder m).map Prod.fst := by
  simp only [pointCmd.addMissing, h, createdNames, List.filterMap_append, List.filterMap_cons]
  have h1 := gather_createdNames api cf ds [] [] s
  have h2 := addZones_createdNames api g parse (rangeOrder m) s1
  simp only [createdNames] at h1 h2
  rw [h1, h2]
  rfl

/-- When the first loop is interrupted, `addMissing` is the events of that loop. -/
theorem addMissing_none {σ : Type} (api : Api σ) (g : Globals)
    (parse : String → Except Error DomainName) (rangeOrder : StringMap → StringMap)
    (cf : List String) (ds : List DomainGetListResult) (s : σ)
    (h : (pointCmd.gather api cf ds [] [] s).2 = none) :
    pointCmd.addMissing api g parse rangeOrder cf ds s =
      (pointCmd.gather api cf ds [] [] s).1 := by
  simp [pointCmd.addMissing, h]

/-- When the first loop completes, `addMissing` continues with the second loop. -/
theorem addMissing_some {σ : Type} (api : Api σ) (g : Globals)
    (parse : String → Except Error DomainName) (rangeOrder : StringMap → StringMap)
    (cf : List String) (ds : List DomainGetListResult) (s : σ)
    (m : StringMap) (dl : List String) (s1 : σ)
    (h : (pointCmd.gather api cf ds [] [] s).2 = some (m, dl, s1)) :
    pointCmd.addMissing api g parse rangeOrder cf ds s =
      (pointCmd.gather api cf ds [] [] s).1 ++
        Event.log Level.info "Zones that will be created in Cloudflare:" [Arg.strs dl] ::
        pointCmd.addZones api g parse (rangeOrder m) s1 := by
  simp [pointCmd.addMissing, h]

/-- The helper `contains` answers `false` exactly for non-members. -/
theorem not_contains_iff (l : List String) (e : String) : contains l e = false ↔ e ∉ l := by
  rw [← contains_iff]
  simp

/-- Every create-zone call of `addMissing` is for the name in the detail record
of a listed domain whose listed name is not among the zone names. -/
theorem addMissing_created {σ : Type} (api : Api σ) (g : Globals)
    (parse : String → Except Error DomainName) (rangeOrder : StringMap → StringMap)
    (cf : List String) (ds : List DomainGetListResult) (s : σ)
    (hperm : ∀ m, (rangeOrder m).Perm m) :
    ∀ name ∈ createdNames (pointCmd.addMissing api g parse rangeOrder cf ds s),
      ∃ dom ∈ ds, dom.Name ∉ cf ∧
        ∃ info, Event.DomainGetInfo dom.Name (Except.ok (some info)) ∈
          pointCmd.addMissing api g parse rangeOrder cf ds s ∧ info.Name = name := by
  intro name hname
  rcases hg : (pointCmd.gather api cf ds [] [] s).2 with _ | ⟨m, dl, s1⟩
  · rw [addMissing_none api g parse rangeOrder cf ds s hg, gather_createdNames] at hname
    simp at hname
  · rw [addMissing_createdNames_some api g parse rangeOrder cf ds s m dl s1 hg] at hname
    have hk : name ∈ m.map Prod.fst := ((hperm m).map Prod.fst).mem_iff.mp hname
    obtain ⟨-, -, -, h4, -⟩ := gather_some api cf ds [] [] s m dl s1 hg
    rcases h4 name hk with hk0 | ⟨dom, hd, hcd, info, hi, hik⟩
    · simp at hk0
    · refine ⟨dom, hd, (not_contains_iff _ _).mp hcd, info, ?_, hik⟩
      rw [addMissing_some api g parse rangeOrder cf ds s m dl s1 hg]
      exact List.mem_append_left _ hi

/-- C7 (amended): in a run of `point` whose zone listing returned `zones` and
whose domain listing returned `ds`, with `range` visiting every map entry
once: every create-zone call is for the name in the detail record that the
registrar returned for a listed domain whose listed name is not among the zone
names; when the detail records of the run carry the names they were looked up
by, every create-zone call is for the name of a listed domain that is not
among the zone names; and when every listed domain has a zone of the same
name, the run consists of the two listings and one log line: no lookup, no
create-zone call and no nameserver update. -/
theorem point_idempotent {σ : Type} (api : Api σ) (g : Globals)
    (parse : String → Except Error DomainName) (rangeOrder : StringMap → StringMap)
    (s s1 s2 : σ) (zones : List Zone) (ds : List DomainGetListResult) (err : Option Error)
    (hz : api.ListZonesContext s "" g.cloudflareAccount.ID 50 = (Except.ok zones, s1))
    (hl : api.DomainsGetList s1 = ((ds, err), s2))
    (hperm : ∀ m, (rangeOrder m).Perm m) :
    (∀ name ∈ createdNames (pointCmd.Run api g parse rangeOrder s),
      ∃ dom ∈ ds, dom.Name ∉ zones.map Zone.Name ∧
        ∃ info, Event.DomainGetInfo dom.Name (Except.ok (some info)) ∈
          pointCmd.Run api g parse rangeOrder s ∧ info.Name = name) ∧
    ((∀ n info, Event.DomainGetInfo n (Except.ok (some info)) ∈
        pointCmd.Run api g parse rangeOrder s → info.Name = n) →
      ∀ name ∈ createdNames (pointCmd.Run api g parse rangeOrder s),
        name ∈ ds.map DomainGetListResult.Name ∧ name ∉ zones.map Zone.Name) ∧
    ((∀ dom ∈ ds, dom.Name ∈ zones.map Zone.Name) →
      pointCmd.Run api g parse rangeOrder s =
        [Event.ListZonesContext "" g.cloudflareAccount.ID 50 (Except.ok zones),
         Event.DomainsGetList (ds, err),
         Event.log Level.info "Zones that will be created in Cloudflare:" [Arg.strs []]] ∧
      createdNames (pointCmd.Run api g parse rangeOrder s) = [] ∧
      (pointCmd.Run api g parse rangeOrder s).filter Event.isNameserverUpdate = []) := by
  have hrun := pointRun_eq api g parse rangeOrder s s1 s2 zones ds err hz hl
  have h1 : ∀ name ∈ createdNames (pointCmd.Run api g parse rangeOrder s),
      ∃ dom ∈ ds, dom.Name ∉ zones.map Zone.Name ∧
        ∃ info, Event.DomainGetInfo dom.Name (Except.ok (some info)) ∈
          pointCmd.Run api g parse rangeOrder s ∧ info.Name = name := by
    intro name hname
    rw [hrun] at hname ⊢
    have hname2 : name ∈ createdNames
        (pointCmd.addMissing api g parse rangeOrder (zones.map Zone.Name) ds s2) := by
      simpa [createdNames, Event.createdName] using hname
    obtain ⟨dom, hd, hnc, info, hi, hik⟩ :=
      addMissing_created api g parse rangeOrder _ ds s2 hperm name hname2
    exact ⟨dom, hd, hnc, info, List.mem_cons_of_mem _ (List.mem_cons_of_mem _ hi), hik⟩
  refine ⟨h1, ?_, ?_⟩
  · intro hecho name hname
    obtain ⟨dom, hd, hnc, info, hi, hik⟩ := h1 name hname
    have hn : info.Name = dom.Name := hecho dom.Name info hi
    have hnd : name = dom.Name := by rw [← hik, hn]
    rw [hnd]
    exact ⟨List.mem_map_of_mem _ hd, hnc⟩
  · intro hall
    have hskip := gather_skip_all api (zones.map Zone.Name) ds [] [] s2
      (fun dom hd => (contains_iff _ _).mpr (hall dom hd))
    have hnil : rangeOrder [] = [] := List.Perm.eq_nil (hperm [])
    have hrun2 : pointCmd.Run api g parse rangeOrder s =
        [Event.ListZonesContext "" g.cloudflareAccount.ID 50 (Except.ok zones),
         Event.DomainsGetList (ds, err),
         Event.log Level.info "Zones that will be created in Cloudflare:" [Arg.strs []]] := by
      rw [hrun]
      simp [pointCmd.addMissing, hskip, hnil, pointCmd.addZones]
    rw [hrun2]
    exact ⟨rfl, rfl, rfl⟩

/-- Witness of C7: with the three zones present, `point` creates nothing. -/
theorem point_idempotent_witness :
    pointCmd.Run allPointedApi exampleGlobals comParse id () =
      [Event.ListZonesContext "" "acct" 50
         (Except.ok [{ ID := "1", Name := "a.com", NameServers := [] },
                     { ID := "2", Name := "b.com", NameServers := [] },
                     { ID := "3", Name := "c.com", NameServers := [] }]),
       Event.DomainsGetList
         ([{ Name := "a.com" }, { Name := "b.com" }, { Name := "c.com" }], none),
       Event.log Level.info "Zones that will be created in Cloudflare:" [Arg.strs []]] ∧
    createdNames (pointCmd.Run allPointedApi exampleGlobals comParse id ()) = [] ∧
    (pointCmd.Run allPointedApi exampleGlobals comParse id ()).filter
      Event.isNameserverUpdate = [] :=
  (point_idempotent allPointedApi exampleGlobals comParse id () () ()
    [{ ID := "1", Name := "a.com", NameServers := [] },
     { ID := "2", Name := "b.com", NameServers := [] },
     { ID := "3", Name := "c.com", NameServers := [] }]
    [{ Name := "a.com" }, { Name := "b.com" }, { Name := "c.com" }] none rfl rfl
    (fun m => List.Perm.refl m)).2.2 (by decide)

/-- C10: in a run of `point` whose zone listing returned `zones` and whose
domain listing returned `ds` with the error value `err`: after a create-zone
call no lookup is made, and before it every listed domain without a zone was
looked up with success; if some lookup of the run errored, the run ends with
the fatal lookup message and contains no create-zone call and no nameserver
update; and the run continues after the domain listing with `addMissing` on
the returned list, whatever `err` is (for an empty list, with the one log
line). -/
theorem point_gather_before_mutate {σ : Type} (api : Api σ) (g : Globals)
    (parse : String → Except Error DomainName) (rangeOrder : StringMap → StringMap)
    (s s1 s2 : σ) (zones : List Zone) (ds : List DomainGetListResult) (err : Option Error)
    (hz : api.ListZonesContext s "" g.cloudflareAccount.ID 50 = (Except.ok zones, s1))
    (hl : api.DomainsGetList s1 = ((ds, err), s2)) :
    (∀ pre x post, pointCmd.Run api g parse rangeOrder s = pre ++ x :: post →
      x.isCreateZone = true →
      (∀ e ∈ post, e.isLookup = false) ∧
      (∀ dom ∈ ds, dom.Name ∉ zones.map Zone.Name →
        ∃ info, Event.DomainGetInfo dom.Name (Except.ok (some info)) ∈ pre)) ∧
    (∀ n e, Event.DomainGetInfo n (Except.error e) ∈ pointCmd.Run api g parse rangeOrder s →
      (pointCmd.Run api g parse rangeOrder s).getLast? =
        some (Event.log Level.fatal "Error getting Namecheap domain info for domain:"
          [Arg.str n, Arg.err e]) ∧
      createdNames (pointCmd.Run api g parse rangeOrder s) = [] ∧
      (pointCmd.Run api g parse rangeOrder s).filter Event.isNameserverUpdate = []) ∧
    pointCmd.Run api g parse rangeOrder s =
      Event.ListZonesContext "" g.cloudflareAccount.ID 50 (Except.ok zones) ::
      Event.DomainsGetList (ds, err) ::
      pointCmd.addMissing api g parse rangeOrder (zones.map Zone.Name) ds s2 ∧
    (ds = [] → rangeOrder [] = [] →
      pointCmd.Run api g parse rangeOrder s =
        [Event.ListZonesContext "" g.cloudflareAccount.ID 50 (Except.ok zones),
         Event.DomainsGetList ([], err),
         Event.log Level.info "Zones that will be created in Cloudflare:" [Arg.strs []]]) := by
  have hrun := pointRun_eq api g parse rangeOrder s s1 s2 zones ds err hz hl
  refine ⟨?_, ?_, hrun, ?_⟩
  rotate_right
  · intro hds hnil
    rw [hrun, hds]
    simp [pointCmd.addMissing, pointCmd.gather, hnil, pointCmd.addZones]
  · intro pre x post h hx
    rw [hrun] at h
    obtain ⟨pre1, rfl, h1⟩ := cons_eq_split Event.isCreateZone h rfl hx
    obtain ⟨pre2, rfl, h2⟩ := cons_eq_split Event.isCreateZone h1 rfl hx
    rcases hg : (pointCmd.gather api (zones.map Zone.Name) ds [] [] s2).2 with
      _ | ⟨m, dl, s3⟩
    · rw [addMissing_none api g parse rangeOrder _ ds s2 hg] at h2
      exact (not_split_of_forall Event.isCreateZone h2
        (fun e he => (gather_events api _ ds [] [] s2 e he).1) hx).elim
    · rw [addMissing_some api g parse rangeOrder _ ds s2 m dl s3 hg] at h2
      obtain ⟨pre3, rfl, h3⟩ := append_eq_split Event.isCreateZone h2
        (fun e he => (gather_events api _ ds [] [] s2 e he).1) hx
      obtain ⟨pre4, rfl, h4⟩ := cons_eq_split Event.isCreateZone h3 rfl hx
      obtain ⟨-, -, hlook, -, -⟩ := gather_some api _ ds [] [] s2 m dl s3 hg
      constructor
      · intro e he
        have hmem : e ∈ pointCmd.addZones api g parse (rangeOrder m) s3 := by
          rw [h4]
          simp [he]
        exact (addZones_not_terminal api g parse _ s3 e hmem).2
      · intro dom hd hnc
        obtain ⟨info, hi⟩ := hlook dom hd ((not_contains_iff _ _).mpr hnc)
        exact ⟨info, by simp [hi]⟩
  · intro n e hmem
    rw [hrun] at hmem ⊢
    simp only [List.mem_cons] at hmem
    rcases hmem with hmem | hmem | hmem
    · simp at hmem
    · simp at hmem
    · rcases hg : (pointCmd.gather api (zones.map Zone.Name) ds [] [] s2).2 with
        _ | ⟨m, dl, s3⟩
      · rw [addMissing_none api g parse rangeOrder _ ds s2 hg] at hmem ⊢
        obtain ⟨-, hlast⟩ := gather_error api _ ds [] [] s2 n e hmem
        have hne : (pointCmd.gather api (zones.map Zone.Name) ds [] [] s2).1 ≠ [] := by
          intro hnil
          rw [hnil] at hmem
          simp at hmem
        obtain ⟨a, l, hal⟩ := List.exists_cons_of_ne_nil hne
        refine ⟨?_, ?_, ?_⟩
        · rw [hal] at hlast ⊢
          simp only [List.getLast?_cons_cons]
          exact hlast
        · simp only [createdNames, List.filterMap_cons, Event.createdName]
          exact gather_createdNames api _ ds [] [] s2
        · simp only [List.filter_cons, Event.isNameserverUpdate]
          simpa using gather_updates api _ ds [] [] s2
      · exfalso
        rw [addMissing_some api g parse rangeOrder _ ds s2 m dl s3 hg] at hmem
        simp only [List.mem_append, List.mem_cons] at hmem
        rcases hmem with hmem | hmem | hmem
        · have := (gather_error api _ ds [] [] s2 n e hmem).1
          rw [hg] at this
          cases this
        · simp at hmem
        · have := (addZones_not_terminal api g parse _ s3 _ hmem).2
          cases this

/-- Witness of C10: the lookup of `b.com` errors after the lookup of `a.com`
succeeded and the domain listing came with an error; the run ends with the
fatal lookup message and creates nothing. -/
theorem point_gather_before_mutate_witness :
    (pointCmd.Run lookupFailsApi exampleGlobals comParse id ()).getLast? =
      some (Event.log Level.fatal "Error getting Namecheap domain info for domain:"
        [Arg.str "b.com", Arg.err "lookup refused"]) ∧
    createdNames (pointCmd.Run lookupFailsApi exampleGlobals comParse id ()) = [] ∧
    (pointCmd.Run lookupFailsApi exampleGlobals comParse id ()).filter
      Event.isNameserverUpdate = [] :=
  (point_gather_before_mutate lookupFailsApi exampleGlobals comParse id () () () []
    [{ Name := "a.com" }, { Name := "b.com" }, { Name := "c.com" }] (some "list error")
    rfl rfl).2.1 "b.com" "lookup refused" (by decide)

/-- C8: the second loop of `point` never ends the process and calls
create-zone once for every entry, in the order of the entries, whatever the
calls answer; an entry whose zone creation errors, whose name does not parse,
whose nameserver push errors or whose update is reported as failed produces
its calls and one error or warning line, and nothing else; and in a run whose
first loop completes with the map `m`, with `range` visiting every entry once,
the keys of `m` are distinct, no event ends the process, and every key of `m`
gets exactly one create-zone call. -/
theorem point_per_domain_isolation {σ : Type} (api : Api σ) (g : Globals)
    (parse : String → Except Error DomainName) :
    (∀ (entries : List (String × List String)) (s : σ),
      (∀ e ∈ pointCmd.addZones api g parse entries s, e.isTerminal = false) ∧
      createdNames (pointCmd.addZones api g parse entries s) = entries.map Prod.fst) ∧
    (∀ (entry : String × List String) (s : σ) (e : Error),
      (api.CreateZone s entry.1 true g.cloudflareAccount "full").1 = Except.error e →
      (pointCmd.addZone api g parse entry s).1 =
        [Event.CreateZone entry.1 true g.cloudflareAccount "full" (Except.error e),
         Event.log Level.error "Error when adding new zone" [Arg.str entry.1, Arg.err e]]) ∧
    (∀ (entry : String × List String) (s : σ) (z : Zone) (e : Error),
      (api.CreateZone s entry.1 true g.cloudflareAccount "full").1 = Except.ok z →
      z.NameServers ≠ entry.2 → parse entry.1 = Except.error e →
      (pointCmd.addZone api g parse entry s).1 =
        [Event.CreateZone entry.1 true g.cloudflareAccount "full" (Except.ok z),
         Event.log Level.info
           "New zone %s nameservers don't match whats on Namecheap! Cloudflare wants %v, Namecheap has %v\n"
           [Arg.str z.Name, Arg.strs z.NameServers, Arg.strs entry.2],
         Event.log Level.error "Error when parsing domain name"
           [Arg.str entry.1, Arg.err e]]) ∧
    (∀ (entry : String × List String) (s : σ) (z : Zone) (pd : DomainName) (e : Error),
      (api.CreateZone s entry.1 true g.cloudflareAccount "full").1 = Except.ok z →
      z.NameServers ≠ entry.2 → parse entry.1 = Except.ok pd →
      (api.DomainDNSSetCustom (api.CreateZone s entry.1 true g.cloudflareAccount "full").2
        pd.SLD pd.TLD (String.intercalate "," z.NameServers)).1 = Except.error e →
      (pointCmd.addZone api g parse entry s).1 =
        [Event.CreateZone entry.1 true g.cloudflareAccount "full" (Except.ok z),
         Event.log Level.info
           "New zone %s nameservers don't match whats on Namecheap! Cloudflare wants %v, Namecheap has %v\n"
           [Arg.str z.Name, Arg.strs z.NameServers, Arg.strs entry.2],
         Event.DomainDNSSetCustom pd.SLD pd.TLD (String.intercalate "," z.NameServers)
           (Except.error e),
         Event.log Level.error "Error when setting Namecheap nameservers for domain"
           [Arg.str entry.1, Arg.err e]]) ∧
    (∀ (entry : String × List String) (s : σ) (z : Zone) (pd : DomainName),
      (api.CreateZone s entry.1 true g.cloudflareAccount "full").1 = Except.ok z →
      z.NameServers ≠ entry.2 → parse entry.1 = Except.ok pd →
      (api.DomainDNSSetCustom (api.CreateZone s entry.1 true g.cloudflareAccount "full").2
        pd.SLD pd.TLD (String.intercalate "," z.NameServers)).1 =
          Except.ok { Update := false } →
      (pointCmd.addZone api g parse entry s).1 =
        [Event.CreateZone entry.1 true g.cloudflareAccount "full" (Except.ok z),
         Event.log Level.info
           "New zone %s nameservers don't match whats on Namecheap! Cloudflare wants %v, Namecheap has %v\n"
           [Arg.str z.Name, Arg.strs z.NameServers, Arg.strs entry.2],
         Event.DomainDNSSetCustom pd.SLD pd.TLD (String.intercalate "," z.NameServers)
           (Except.ok { Update := false }),
         Event.log Level.warn "Namecheap nameservers update failed for domain"
           [Arg.str entry.1]]) ∧
    (∀ (rangeOrder : StringMap → StringMap) (cf : List String)
      (ds : List DomainGetListResult) (s s1 : σ) (m : StringMap) (dl : List String),
      (∀ m, (rangeOrder m).Perm m) →
      (pointCmd.gather api cf ds [] [] s).2 = some (m, dl, s1) →
      (m.map Prod.fst).Nodup ∧
      (∀ e ∈ pointCmd.addMissing api g parse rangeOrder cf ds s, e.isTerminal = false) ∧
      ∀ name ∈ m.map Prod.fst,
        (createdNames (pointCmd.addMissing api g parse rangeOrder cf ds s)).count name = 1) := by
  refine ⟨?_, ?_, ?_, ?_, ?_, ?_⟩
  · intro entries s
    exact ⟨fun e he => (addZones_not_terminal api g parse entries s e he).1,
      addZones_createdNames api g parse entries s⟩
  · intro entry s e h
    simp [pointCmd.addZone, h]
  · intro entry s z e h hne hp
    have hneq : equal z.NameServers entry.2 = false := by
      rw [← Bool.not_eq_true, equal_iff]
      exact hne
    simp [pointCmd.addZone, h, hneq, hp]
  · intro entry s z pd e h hne hp hset
    have hneq : equal z.NameServers entry.2 = false := by
      rw [← Bool.not_eq_true, equal_iff]
      exact hne
    simp [pointCmd.addZone, h, hneq, hp, hset]
  · intro entry s z pd h hne hp hset
    have hneq : equal z.NameServers entry.2 = false := by
      rw [← Bool.not_eq_true, equal_iff]
      exact hne
    simp [pointCmd.addZone, h, hneq, hp, hset]
  · intro rangeOrder cf ds s s1 m dl hperm hg
    obtain ⟨hterm, -, -, -, hnodup⟩ := gather_some api cf ds [] [] s m dl s1 hg
    have hnd : (m.map Prod.fst).Nodup := hnodup (by simp)
    refine ⟨hnd, ?_, ?_⟩
    · intro e he
      rw [addMissing_some api g parse rangeOrder cf ds s m dl s1 hg] at he
      simp only [List.mem_append, List.mem_cons] at he
      rcases he with he | he | he
      · exact hterm e he
      · subst he; rfl
      · exact (addZones_not_terminal api g parse _ s1 e he).1
    · intro name hname
      rw [addMissing_createdNames_some api g parse rangeOrder cf ds s m dl s1 hg]
      rw [((hperm m).map Prod.fst).count_eq name]
      exact List.count_eq_one_of_mem hnd hname

/-- Witness of C8: three domains to add, the zone creation of the second
errors; create-zone is called for all three, and the second produces its call
and one error line. -/
theorem point_per_domain_isolation_witness :
    createdNames (pointCmd.Run threeDomainsApi exampleGlobals comParse id ()) =
      ["a.com", "b.com", "c.com"] ∧
    (pointCmd.addZone threeDomainsApi exampleGlobals comParse
        ("b.com", exampleDomain.Nameservers) ()).1 =
      [Event.CreateZone "b.com" true exampleGlobals.cloudflareAccount "full"
         (Except.error "zone refused"),
       Event.log Level.error "Error when adding new zone"
         [Arg.str "b.com", Arg.err "zone refused"]] ∧
    ((∀ e ∈ pointCmd.addZones threeDomainsApi exampleGlobals comParse
        [("a.com", exampleDomain.Nameservers), ("b.com", exampleDomain.Nameservers),
         ("c.com", exampleDomain.Nameservers)] (), e.isTerminal = false) ∧
     createdNames (pointCmd.addZones threeDomainsApi exampleGlobals comParse
        [("a.com", exampleDomain.Nameservers), ("b.com", exampleDomain.Nameservers),
         ("c.com", exampleDomain.Nameservers)] ()) =
       [("a.com", exampleDomain.Nameservers), ("b.com", exampleDomain.Nameservers),
         ("c.com", exampleDomain.Nameservers)].map Prod.fst) :=
  ⟨by decide,
   (point_per_domain_isolation threeDomainsApi exampleGlobals comParse).2.1
     ("b.com", exampleDomain.Nameservers) () "zone refused" rfl,
   (point_per_domain_isolation threeDomainsApi exampleGlobals comParse).1
     [("a.com", exampleDomain.Nameservers), ("b.com", exampleDomain.Nameservers),
      ("c.com", exampleDomain.Nameservers)] ()⟩

/-- For an entry whose zone was created, the loop body calls
set-custom-nameservers if and only if the nameservers of the new zone differ
from the nameservers of the entry as sequences and the domain name parses; the
call then carries the parsed label and suffix and the comma-joined new
nameservers; equal sequences give no call, and so does a name that does not
parse. -/
theorem addZone_gating {σ : Type} (api : Api σ) (g : Globals)
    (parse : String → Except Error DomainName) (entry : String × List String) (s : σ)
    (newZone : Zone)
    (hcreated : (api.CreateZone s entry.1 true g.cloudflareAccount "full").1 =
      Except.ok newZone) :
    ((pointCmd.addZone api g parse entry s).1.filter Event.isNameserverUpdate ≠ [] ↔
      newZone.NameServers ≠ entry.2 ∧ ∃ pd, parse entry.1 = Except.ok pd) ∧
    (∀ pd, newZone.NameServers ≠ entry.2 → parse entry.1 = Except.ok pd →
      (pointCmd.addZone api g parse entry s).1.filter Event.isNameserverUpdate =
        [Event.DomainDNSSetCustom pd.SLD pd.TLD (String.intercalate "," newZone.NameServers)
          (api.DomainDNSSetCustom (api.CreateZone s entry.1 true g.cloudflareAccount "full").2
            pd.SLD pd.TLD (String.intercalate "," newZone.NameServers)).1]) ∧
    (newZone.NameServers = entry.2 →
      (pointCmd.addZone api g parse entry s).1.filter Event.isNameserverUpdate = []) ∧
    (∀ e, parse entry.1 = Except.error e →
      (pointCmd.addZone api g parse entry s).1.filter Event.isNameserverUpdate = []) := by
  have hsame : newZone.NameServers = entry.2 →
      (pointCmd.addZone api g parse entry s).1.filter Event.isNameserverUpdate = [] := by
    intro heq
    have he : equal newZone.NameServers entry.2 = true := (equal_iff _ _).mpr heq
    simp [pointCmd.addZone, hcreated, he, Event.isNameserverUpdate]
  have hperr : ∀ e, parse entry.1 = Except.error e →
      (pointCmd.addZone api g parse entry s).1.filter Event.isNameserverUpdate = [] := by
    intro e hp
    by_cases heq : newZone.NameServers = entry.2
    · exact hsame heq
    · have he : equal newZone.NameServers entry.2 = false := by
        rw [← Bool.not_eq_true, equal_iff]
        exact heq
      simp [pointCmd.addZone, hcreated, he, hp, Event.isNameserverUpdate]
  have hcall : ∀ pd, newZone.NameServers ≠ entry.2 → parse entry.1 = Except.ok pd →
      (pointCmd.addZone api g parse entry s).1.filter Event.isNameserverUpdate =
        [Event.DomainDNSSetCustom pd.SLD pd.TLD (String.intercalate "," newZone.NameServers)
          (api.DomainDNSSetCustom (api.CreateZone s entry.1 true g.cloudflareAccount "full").2
            pd.SLD pd.TLD (String.intercalate "," newZone.NameServers)).1] := by
    intro pd heq hp
    have he : equal newZone.NameServers entry.2 = false := by
      rw [← Bool.not_eq_true, equal_iff]
      exact heq
    rcases hset : (api.DomainDNSSetCustom
        (api.CreateZone s entry.1 true g.cloudflareAccount "full").2 pd.SLD pd.TLD
        (String.intercalate "," newZone.NameServers)).1 with e | resp
    · simp [pointCmd.addZone, hcreated, he, hp, hset, Event.isNameserverUpdate]
    · cases hu : resp.Update <;>
        simp [pointCmd.addZone, hcreated, he, hp, hset, hu, Event.isNameserverUpdate]
  refine ⟨?_, hcall, hsame, hperr⟩
  constructor
  · intro hne
    by_cases heq : newZone.NameServers = entry.2
    · exact (hne (hsame heq)).elim
    · refine ⟨heq, ?_⟩
      rcases hp : parse entry.1 with e | pd
      · exact (hne (hperr e hp)).elim
      · exact ⟨pd, rfl⟩
  · rintro ⟨heq, pd, hp⟩
    rw [hcall pd heq hp]
    simp

/-- The value under a key after an assignment. -/
theorem get?_set (m : StringMap) (k : String) (v : List String) (k1 : String) :
    StringMap.get? (StringMap.set m k v) k1 =
      if k = k1 then some v else StringMap.get? m k1 := by
  induction m with
  | nil => simp [StringMap.set, StringMap.get?]
  | cons e rest ih =>
    by_cases h : e.1 = k
    · by_cases h1 : k = k1
      · simp [StringMap.set, StringMap.get?, h, h1]
      · have h2 : ¬ e.1 = k1 := fun h3 => h1 (h ▸ h3)
        simp [StringMap.set, StringMap.get?, h, h1, h2]
    · simp only [StringMap.set, h, if_false, StringMap.get?, ih]
      by_cases h1 : k = k1
      · have h2 : ¬ e.1 = k1 := fun h3 => h (h3.trans h1.symm)
        simp [h1, h2]
      · simp [h1]

/-- In a map with distinct keys, an entry is the value under its key. -/
theorem get?_of_mem (m : StringMap) (k : String) (v : List String) (h : (k, v) ∈ m)
    (hn : (m.map Prod.fst).Nodup) : StringMap.get? m k = some v := by
  induction m with
  | nil => simp at h
  | cons e rest ih =>
    simp only [List.map_cons, List.nodup_cons] at hn
    rcases List.mem_cons.mp h with h1 | h1
    · subst h1
      simp [StringMap.get?]
    · have hne : ¬ e.1 = k := by
        intro hek
        apply hn.1
        rw [hek]
        exact List.mem_map_of_mem Prod.fst h1
      simp only [StringMap.get?, hne, if_false]
      exact ih h1 hn.2

/-- The last record under a name carries that name. -/
theorem lastRecord_name (k : String) (tr : List Event) (info : DomainInfo)
    (h : lastRecord k tr = some info) : info.Name = k := by
  induction tr with
  | nil => simp [lastRecord] at h
  | cons e rest ih =>
    cases e with
    | DomainGetInfo n r =>
      rcases r with e0 | _ | i
      · simp only [lastRecord] at h
        exact ih h
      · simp only [lastRecord] at h
        exact ih h
      · simp only [lastRecord] at h
        cases hl : lastRecord k rest with
        | some later =>
          rw [hl] at h
          simp only [Option.some.injEq] at h
          subst h
          exact ih hl
        | none =>
          rw [hl] at h
          simp only at h
          split at h
          · rename_i hik
            simp only [Option.some.injEq] at h
            subst h
            exact hik
          · cases h
    | _ =>
      simp only [lastRecord] at h
      exact ih h

/-- An event that is not a lookup does not change the last record. -/
theorem lastRecord_cons_of_not_lookup (k : String) (e : Event) (l : List Event)
    (he : e.isLookup = false) : lastRecord k (e :: l) = lastRecord k l := by
  cases e with
  | DomainGetInfo n r => cases he
  | _ => simp only [lastRecord]

/-- Events without lookups, appended, do not change the last record. -/
theorem lastRecord_append_of_no_lookup (k : String) (a b : List Event)
    (hb : ∀ e ∈ b, e.isLookup = false) : lastRecord k (a ++ b) = lastRecord k a := by
  induction a with
  | nil =>
    simp only [List.nil_append]
    induction b with
    | nil => rfl
    | cons e rest ih =>
      rw [lastRecord_cons_of_not_lookup k e rest (hb e (by simp))]
      rw [ih (fun x hx => hb x (List.mem_cons_of_mem _ hx))]
  | cons e rest ih =>
    cases e with
    | DomainGetInfo n r =>
      rcases r with e0 | _ | i
      · rw [List.cons_append]
        simp only [lastRecord]
        exact ih
      · rw [List.cons_append]
        simp only [lastRecord]
        exact ih
      · rw [List.cons_append]
        simp only [lastRecord]
        rw [ih]
    | _ =>
      rw [List.cons_append]
      simp only [lastRecord]
      exact ih

/-- The values of the map a completed first loop leaves behind: under every
key, the nameservers of the record returned last under that name, or the
value the map had before. -/
theorem gather_values {σ : Type} (api : Api σ) (cf : List String)
    (ds : List DomainGetListResult) (m : StringMap) (dl : List String) (s : σ)
    (m1 : StringMap) (dl1 : List String) (s1 : σ)
    (h : (pointCmd.gather api cf ds m dl s).2 = some (m1, dl1, s1)) (k : String) :
    StringMap.get? m1 k =
      match lastRecord k (pointCmd.gather api cf ds m dl s).1 with
      | some info => some info.Nameservers
      | none => StringMap.get? m k := by
  induction ds generalizing m dl s with
  | nil =>
    simp only [pointCmd.gather, Option.some.injEq, Prod.mk.injEq] at h
    obtain ⟨rfl, -, -⟩ := h
    simp [pointCmd.gather, lastRecord]
  | cons dom rest ih =>
    cases hc : contains cf dom.Name
    · rcases hinfo : (api.DomainGetInfo s dom.Name).1 with e0 | _ | info
      · rw [gather_cons_error api cf dom rest m dl s hc e0 hinfo] at h
        simp at h
      · rw [gather_cons_nil api cf dom rest m dl s hc hinfo] at h
        simp at h
      · rw [gather_cons_ok api cf dom rest m dl s hc info hinfo] at h ⊢
        have h1 := ih _ _ _ h
        rw [h1]
        simp only [lastRecord]
        cases hl : lastRecord k (pointCmd.gather api cf rest
            (StringMap.set m info.Name info.Nameservers) (dl ++ [info.Name])
            (api.DomainGetInfo s dom.Name).2).1 with
        | some later => rfl
        | none =>
          simp only [get?_set]
          split <;> rfl
    · rw [gather_cons_skip api cf dom rest m dl s hc] at h ⊢
      exact ih _ _ _ h

/-- The loop body starts with its create-zone call; nothing after it is a
create-zone call or a lookup. -/
theorem addZone_shape {σ : Type} (api : Api σ) (g : Globals)
    (parse : String → Except Error DomainName) (entry : String × List String) (s : σ) :
    (pointCmd.addZone api g parse entry s).1 =
      Event.CreateZone entry.1 true g.cloudflareAccount "full"
        (api.CreateZone s entry.1 true g.cloudflareAccount "full").1 ::
      (pointCmd.addZone api g parse entry s).1.tail ∧
    ∀ e ∈ (pointCmd.addZone api g parse entry s).1.tail, e.isCreateZone = false := by
  simp only [pointCmd.addZone]
  split
  · refine ⟨rfl, ?_⟩
    intro e he
    simp at he
    subst he
    rfl
  · split
    · split
      · refine ⟨rfl, ?_⟩
        intro e he
        simp at he
        rcases he with h | h <;> subst h <;> rfl
      · refine ⟨rfl, ?_⟩
        intro e he
        simp only [List.tail_cons, List.mem_cons] at he
        rcases he with h | h | h
        · subst h; rfl
        · subst h; rfl
        · split at h
          · simp at h
            subst h
            rfl
          · split at h
            · simp at h
              subst h
              rfl
            · simp at h
    · refine ⟨rfl, ?_⟩
      intro e he
      simp at he

/-- Taking while `p` holds stops at the end of a prefix satisfying `p` that is
followed by nothing or by an element failing `p`. -/
theorem takeWhile_append_stop {α : Type} (p : α → Bool) (a b : List α)
    (ha : ∀ e ∈ a, p e = true) (hb : b = [] ∨ ∃ x t, b = x :: t ∧ p x = false) :
    (a ++ b).takeWhile p = a := by
  induction a with
  | nil =>
    rcases hb with hb | ⟨x, t, hb, hx⟩
    · subst hb; rfl
    · subst hb
      simp [List.takeWhile, hx]
  | cons e rest ih =>
    simp only [List.cons_append, List.takeWhile_cons, ha e (by simp), if_true]
    rw [ih (fun y hy => ha y (List.mem_cons_of_mem _ hy))]

/-- The second loop produces nothing or starts with a create-zone call. -/
theorem addZones_head {σ : Type} (api : Api σ) (g : Globals)
    (parse : String → Except Error DomainName) (entries : List (String × List String)) (s : σ) :
    pointCmd.addZones api g parse entries s = [] ∨
      ∃ x t, pointCmd.addZones api g parse entries s = x :: t ∧ (!x.isCreateZone) = false := by
  cases entries with
  | nil => exact Or.inl rfl
  | cons entry rest =>
    right
    obtain ⟨h1, -⟩ := addZone_shape api g parse entry s
    simp only [pointCmd.addZones]
    rw [h1]
    exact ⟨_, _, rfl, rfl⟩

/-- Around a create-zone call of the second loop: the call is the one of an
entry, and what follows it up to the next create-zone call is the rest of the
loop body for that entry. -/
theorem addZones_split {σ : Type} (api : Api σ) (g : Globals)
    (parse : String → Except Error DomainName) (entries : List (String × List String)) (s : σ)
    (pre post : List Event) (x : Event)
    (h : pointCmd.addZones api g parse entries s = pre ++ x :: post)
    (hx : x.isCreateZone = true) :
    ∃ entry s1, entry ∈ entries ∧
      x = Event.CreateZone entry.1 true g.cloudflareAccount "full"
        (api.CreateZone s1 entry.1 true g.cloudflareAccount "full").1 ∧
      untilNextCreate post = (pointCmd.addZone api g parse entry s1).1.tail ∧
      (pointCmd.addZone api g parse entry s1).1 = x :: untilNextCreate post := by
  induction entries generalizing s pre with
  | nil =>
    simp [pointCmd.addZones] at h
  | cons entry rest ih =>
    obtain ⟨h1, h2⟩ := addZone_shape api g parse entry s
    simp only [pointCmd.addZones] at h
    rw [h1, List.cons_append] at h
    rcases cons_eq_split_or h with ⟨-, hxe, hpost⟩ | ⟨pre1, -, h3⟩
    · have htw : untilNextCreate post = (pointCmd.addZone api g parse entry s).1.tail := by
        rw [hpost]
        unfold untilNextCreate
        apply takeWhile_append_stop
        · intro e he
          rw [h2 e he]
          rfl
        · exact addZones_head api g parse rest _
      refine ⟨entry, s, by simp, hxe, htw, ?_⟩
      rw [htw, hxe]
      exact h1
    · obtain ⟨pre2, -, h4⟩ := append_eq_split Event.isCreateZone h3 h2 hx
      obtain ⟨e1, s1, hmem, hx1, htw, hshape⟩ := ih _ _ h4
      exact ⟨e1, s1, List.mem_cons_of_mem _ hmem, hx1, htw, hshape⟩

/-- C6 (amended): in a run of `point` whose two listings answered, with `range`
visiting every map entry once, around every create-zone call that returned a
zone (`UpdateGating`): the registrar returned a detail record under the
created name before the call; between this call and the next create-zone call
the set-custom-nameservers call is made if and only if the nameservers of the
new zone differ, as sequences, from the nameservers of the last such record
and the name parses into label and suffix; the call then carries the parsed
label and suffix and the comma-joined new nameservers; equal sequences give no
call, and so does a name that does not parse. -/
theorem nameserver_update_gating {σ : Type} (api : Api σ) (g : Globals)
    (parse : String → Except Error DomainName) (rangeOrder : StringMap → StringMap)
    (s s1 s2 : σ) (zones : List Zone) (ds : List DomainGetListResult) (err : Option Error)
    (hz : api.ListZonesContext s "" g.cloudflareAccount.ID 50 = (Except.ok zones, s1))
    (hl : api.DomainsGetList s1 = ((ds, err), s2))
    (hperm : ∀ m, (rangeOrder m).Perm m)
    (pre post : List Event) (name : String) (jumpstart : Bool) (account : Account)
    (zoneType : String) (newZone : Zone)
    (hrun : pointCmd.Run api g parse rangeOrder s =
      pre ++ Event.CreateZone name jumpstart account zoneType (Except.ok newZone) :: post) :
    UpdateGating parse name newZone pre post := by
  have heq := pointRun_eq api g parse rangeOrder s s1 s2 zones ds err hz hl
  rw [heq] at hrun
  obtain ⟨pre1, rfl, h1⟩ := cons_eq_split Event.isCreateZone hrun rfl rfl
  obtain ⟨pre2, rfl, h2⟩ := cons_eq_split Event.isCreateZone h1 rfl rfl
  rcases hg : (pointCmd.gather api (zones.map Zone.Name) ds [] [] s2).2 with
    _ | ⟨m, dl, s3⟩
  · rw [addMissing_none api g parse rangeOrder _ ds s2 hg] at h2
    exact (not_split_of_forall Event.isCreateZone h2
      (fun e he => (gather_events api _ ds [] [] s2 e he).1) rfl).elim
  · rw [addMissing_some api g parse rangeOrder _ ds s2 m dl s3 hg] at h2
    obtain ⟨pre3, rfl, h3⟩ := append_eq_split Event.isCreateZone h2
      (fun e he => (gather_events api _ ds [] [] s2 e he).1) rfl
    obtain ⟨pre4, rfl, h4⟩ := cons_eq_split Event.isCreateZone h3 rfl rfl
    obtain ⟨entry, s4, hmem, hx, htw, hshape⟩ :=
      addZones_split api g parse (rangeOrder m) s3 pre4 post _ h4 rfl
    simp only [Event.CreateZone.injEq] at hx
    obtain ⟨hname, -, -, -, hres⟩ := hx
    -- the entry is an entry of the map, whose value is the last record's nameservers
    have hmem2 : entry ∈ m := (hperm m).mem_iff.mp hmem
    obtain ⟨-, -, -, -, hnodup⟩ := gather_some api _ ds [] [] s2 m dl s3 hg
    have hget : StringMap.get? m entry.1 = some entry.2 :=
      get?_of_mem m entry.1 entry.2 hmem2 (hnodup (by simp))
    have hval := gather_values api _ ds [] [] s2 m dl s3 hg entry.1
    rw [hget] at hval
    cases hlast : lastRecord entry.1
        (pointCmd.gather api (zones.map Zone.Name) ds [] [] s2).1 with
    | none =>
      rw [hlast] at hval
      simp [StringMap.get?] at hval
    | some info =>
      rw [hlast] at hval
      simp only [Option.some.injEq] at hval
      -- the events before the call hold no later lookup
      have hpre4 : ∀ e ∈ pre4, e.isLookup = false := by
        intro e he
        have : e ∈ pointCmd.addZones api g parse (rangeOrder m) s3 := by
          rw [h4]
          simp [he]
        exact (addZones_not_terminal api g parse _ s3 e this).2
      have hrec : lastRecord name
          (Event.ListZonesContext "" g.cloudflareAccount.ID 50 (Except.ok zones) ::
            Event.DomainsGetList (ds, err) ::
            ((pointCmd.gather api (zones.map Zone.Name) ds [] [] s2).1 ++
              Event.log Level.info "Zones that will be created in Cloudflare:"
                [Arg.strs dl] :: pre4)) = some info := by
        simp only [lastRecord]
        rw [lastRecord_append_of_no_lookup]
        · rw [hname]
          exact hlast
        · intro e he
          rcases List.mem_cons.mp he with he | he
          · subst he; rfl
          · exact hpre4 e he
      have hgate := addZone_gating api g parse entry s4 newZone hres.symm
      have hfilter : (pointCmd.addZone api g parse entry s4).1.filter Event.isNameserverUpdate =
          (untilNextCreate post).filter Event.isNameserverUpdate := by
        rw [hshape]
        simp [List.filter_cons, Event.isNameserverUpdate]
      rw [hfilter] at hgate
      rw [hval] at hgate
      obtain ⟨hiff, hcall, hsame, hperr⟩ := hgate
      refine ⟨info, hrec, ?_, ?_, ?_, ?_, ?_⟩
      · rw [hname]
        exact lastRecord_name _ _ _ hlast
      · rw [hname]
        exact hiff
      · intro pd hne hp
        rw [hname] at hp
        exact ⟨_, hcall pd hne hp⟩
      · intro hsm
        exact hsame hsm
      · intro e hp
        rw [hname] at hp
        exact hperr e hp

/-- Witness of C6: in the world of three domains the zone `a.com` is created as
the tenth event with nameservers that differ from the record of `a.com`, the
name parses, and the one update call for `a.com` follows. -/
theorem nameserver_update_gating_witness :
    (untilNextCreate
        ((pointCmd.Run threeDomainsApi exampleGlobals comParse id ()).drop 10)).filter
        Event.isNameserverUpdate =
      [Event.DomainDNSSetCustom "a" "com" "ada.ns.cloudflare.com,bob.ns.cloudflare.com"
        (Except.ok { Update := true })] ∧
    lastRecord "a.com" ((pointCmd.Run threeDomainsApi exampleGlobals comParse id ()).take 9) =
      some (detailOf "a.com") ∧
    UpdateGating comParse "a.com"
      { ID := "new", Name := "a.com", NameServers := exampleZone.NameServers }
      ((pointCmd.Run threeDomainsApi exampleGlobals comParse id ()).take 9)
      ((pointCmd.Run threeDomainsApi exampleGlobals comParse id ()).drop 10) :=
  ⟨by decide, by decide,
   nameserver_update_gating threeDomainsApi exampleGlobals comParse id () () () []
    [{ Name := "a.com" }, { Name := "b.com" }, { Name := "c.com" }] none rfl rfl
    (fun m => List.Perm.refl m)
    ((pointCmd.Run threeDomainsApi exampleGlobals comParse id ()).take 9)
    ((pointCmd.Run threeDomainsApi exampleGlobals comParse id ()).drop 10)
    "a.com" true exampleGlobals.cloudflareAccount "full"
    { ID := "new", Name := "a.com", NameServers := exampleZone.NameServers }
    (by decide)⟩

/-- Counterexample to C7 as stated: the provider has the zone `example.com`, the
registrar lists `x.com` and answers its lookup with the record of
`example.com`; the run calls create-zone for `example.com`, a name that is in
the zone list and is not the name of a listed domain. -/
theorem point_idempotent_counterexample :
    (mismatchApi.ListZonesContext () "" exampleGlobals.cloudflareAccount.ID 50).1 =
      Except.ok [exampleZone] ∧
    (mismatchApi.DomainsGetList ()).1 = ([{ Name := "x.com" }], none) ∧
    createdNames (pointCmd.Run mismatchApi exampleGlobals comParse id ()) = ["example.com"] ∧
    "example.com" ∈ [exampleZone].map Zone.Name ∧
    "example.com" ∉ ([{ Name := "x.com" }] : List DomainGetListResult).map
      DomainGetListResult.Name :=
  ⟨rfl, rfl, by decide, by decide, by decide⟩

/-- Counterexample to C6 as stated: the zone of `github.io`, a name that is
itself a public suffix, is created with nameservers that differ from the
recorded ones, the name does not parse, and no update call is made. -/
theorem nameserver_update_gating_counterexample :
    (exampleApi.CreateZone () "github.io" true exampleGlobals.cloudflareAccount "full").1 =
      Except.ok { ID := "new", Name := "github.io",
                  NameServers := ["ada.ns.cloudflare.com", "bob.ns.cloudflare.com"] } ∧
    ["ada.ns.cloudflare.com", "bob.ns.cloudflare.com"] ≠ exampleDomain.Nameservers ∧
    suffixParse "github.io" = Except.error "github.io is a suffix" ∧
    (pointCmd.addZone exampleApi exampleGlobals suffixParse
        ("github.io", exampleDomain.Nameservers) ()).1.filter Event.isNameserverUpdate = [] :=
  ⟨rfl, by decide, rfl, by decide⟩

end Namecloud
